import Mathlib

/-!
Verification development for the cleaning pipeline of the world-data-insight
repository (src/cleaning.py).

Shallow embedding conventions:
* pandas floating-point cell values are modelled as `Option ℚ`; `none` is
  NaN/null (pandas treats NaN as missing).  IEEE non-finite payloads
  (infinities, NaN bit patterns inside arithmetic) are outside this model;
  no claim touches them.
* a DataFrame is a `List Record` in row order; boolean-mask filtering and
  row-wise maps become `List.filter` / `List.map`, which preserve row order
  exactly as pandas does.
* `_to_numeric_safe` works column-wise: an already-numeric column (dtype kind
  in "biufc") passes through; otherwise the column is stringified and cleaned
  cell by cell.  String manipulation is done on `List Char` with structural
  recursion so that everything evaluates inside the kernel.
-/

/-- The non-breaking space character U+00A0 targeted by the source's
str.replace call. -/
def nbspChar : Char := Char.ofNat 160

/-- Model of python str.strip on a character list: remove leading and
trailing whitespace. -/
def stripChars (cs : List Char) : List Char :=
  ((cs.dropWhile Char.isWhitespace).reverse.dropWhile Char.isWhitespace).reverse

/-- Decimal digits to a natural number, most significant first. -/
def digitsToNat (ds : List Char) : ℕ :=
  ds.foldl (fun n c => 10 * n + (c.toNat - 48)) 0

/-- Syntactic shape of a finite decimal float literal: sign, integer digits,
fractional digits, exponent. -/
structure ParsedNum where
  neg : Bool
  intDigits : List Char
  fracDigits : List Char
  expo : ℤ
deriving DecidableEq

/-- Exponent part of a float literal: optional sign then a nonempty digit
run, nothing after. -/
def parseExponent (cs : List Char) : Option ℤ :=
  let signAndRest : ℤ × List Char :=
    match cs with
    | '-' :: t => (-1, t)
    | '+' :: t => (1, t)
    | _ => (1, cs)
  if signAndRest.2.isEmpty then none
  else if signAndRest.2.all Char.isDigit then
    some (signAndRest.1 * (digitsToNat signAndRest.2 : ℤ))
  else none

/-- Syntax of the finite-decimal fragment of python float parsing, as
invoked by pd.to_numeric(errors="coerce"): optional sign, digits, optional
fractional digits, optional exponent; anything else fails (and so coerces
to null). -/
def parseDecimalSyntax (cs : List Char) : Option ParsedNum :=
  let signAndRest : Bool × List Char :=
    match cs with
    | '-' :: t => (true, t)
    | '+' :: t => (false, t)
    | _ => (false, cs)
  let rest := signAndRest.2
  let intPart := rest.takeWhile Char.isDigit
  let rest2 := rest.dropWhile Char.isDigit
  let fracAndRest : List Char × List Char :=
    match rest2 with
    | '.' :: t => (t.takeWhile Char.isDigit, t.dropWhile Char.isDigit)
    | _ => ([], rest2)
  if intPart.isEmpty && fracAndRest.1.isEmpty then none
  else
    match fracAndRest.2 with
    | [] => some ⟨signAndRest.1, intPart, fracAndRest.1, 0⟩
    | 'e' :: t => (parseExponent t).map (fun e => ⟨signAndRest.1, intPart, fracAndRest.1, e⟩)
    | 'E' :: t => (parseExponent t).map (fun e => ⟨signAndRest.1, intPart, fracAndRest.1, e⟩)
    | _ => none

/-- Rational value denoted by a parsed decimal literal. -/
def evalParsed (p : ParsedNum) : ℚ :=
  (if p.neg then (-1 : ℚ) else 1) *
    ((digitsToNat p.intDigits : ℚ) + (digitsToNat p.fracDigits : ℚ) / (10 : ℚ) ^ p.fracDigits.length) *
    (10 : ℚ) ^ p.expo

/-- Case-insensitive comparison against "nan"; python float parsing accepts
it and yields NaN, which pandas counts as null. -/
def isNanWord (cs : List Char) : Bool :=
  cs.map Char.toLower == ['n', 'a', 'n']

/-- pd.to_numeric(cell, errors="coerce") on one already-cleaned string
cell: a "nan" spelling or an unparseable string becomes null, a decimal
literal becomes its value. -/
def pdToNumericCell (cs : List Char) : Option ℚ :=
  if isNanWord cs then none
  else (parseDecimalSyntax cs).map evalParsed

/-- Character-level cleaning done by _to_numeric_safe (cleaning.py lines
34-39): replace non-breaking spaces by ordinary spaces, drop commas,
strip. -/
def cleanedCell (s : String) : List Char :=
  stripChars ((s.toList.map (fun c => if c = nbspChar then ' ' else c)).filter
    (fun c => c ≠ ','))

/-- The per-cell text path of _to_numeric_safe (cleaning.py lines 34-41):
clean, then map the exact strings "", "nan", "Nan" to null (the
cleaned.replace call), then coerce. -/
def toNumericSafeText (s : String) : Option ℚ :=
  if cleanedCell s = [] ∨ cleanedCell s = ['n', 'a', 'n'] ∨ cleanedCell s = ['N', 'a', 'n']
  then none
  else pdToNumericCell (cleanedCell s)

/-- A raw numeric-candidate column before coercion: either already numeric
(dtype kind in "biufc") or textual.  In a textual column a missing cell is
stringified by astype(str) to "nan", which the replace step maps straight
back to null, so it is modelled as none. -/
inductive RawColumn
  | numeric (vals : List (Option ℚ))
  | textual (vals : List (Option String))
deriving DecidableEq

/-- Column-level _to_numeric_safe (cleaning.py lines 30-41): an
already-numeric column is returned unchanged, a textual one is cleaned cell
by cell. -/
def toNumericSafe : RawColumn → List (Option ℚ)
  | .numeric vals => vals
  | .textual vals =>
      vals.map (fun c =>
        match c with
        | none => none
        | some s => toNumericSafeText s)

/-- Cell transform following the words of the spec contract (spec section
4.1 and claim C8): thousands separators (commas) and non-breaking spaces are
removed, the result is trimmed, empty and nan-like strings become null, any
residual non-parseable value becomes null. -/
def toNumericClaimText (s : String) : Option ℚ :=
  if stripChars (s.toList.filter (fun c => c ≠ ',' && c ≠ nbspChar)) = [] then none
  else pdToNumericCell (stripChars (s.toList.filter (fun c => c ≠ ',' && c ≠ nbspChar)))

/-- Median as pandas computes it over the non-null values of a column: sort,
take the middle element for odd length, the mean of the two middle elements
for even length, none for an empty list. -/
def pandasMedian (xs : List ℚ) : Option ℚ :=
  if (xs.insertionSort (· ≤ ·)).length % 2 = 1 then
    (xs.insertionSort (· ≤ ·)).get? ((xs.insertionSort (· ≤ ·)).length / 2)
  else
    match (xs.insertionSort (· ≤ ·)).get? ((xs.insertionSort (· ≤ ·)).length / 2 - 1),
        (xs.insertionSort (· ≤ ·)).get? ((xs.insertionSort (· ≤ ·)).length / 2) with
    | some a, some b => some ((a + b) / 2)
    | _, _ => none

/-- One row of the table: identifier, categorical, numeric and derived
fields, all nullable.  The raw input has no pop_density column, hence the
none default; Step G fills it. -/
structure Record where
  iso_a2 : Option String
  name_long : Option String
  continent : Option String
  subregion : Option String
  area_km2 : Option ℚ
  pop : Option ℚ
  lifeExp : Option ℚ
  gdpPercap : Option ℚ
  pop_density : Option ℚ := none
deriving DecidableEq

/-- The two columns the pipeline imputes (the loop in Step D). -/
inductive ImpCol
  | lifeExp
  | gdpPercap
deriving DecidableEq

/-- Column accessor for the imputed columns. -/
def getCol : ImpCol → Record → Option ℚ
  | .lifeExp, r => r.lifeExp
  | .gdpPercap, r => r.gdpPercap

/-- Column update for the imputed columns. -/
def setCol : ImpCol → Record → Option ℚ → Record
  | .lifeExp, r, v => { r with lifeExp := v }
  | .gdpPercap, r, v => { r with gdpPercap := v }

/-- Per-column imputation counters, the dict built by
_imputation_groupwise_median. -/
structure ImputeCounts where
  by_subregion : ℕ
  by_continent : ℕ
  by_global : ℕ
deriving DecidableEq

/-- df.groupby("subregion")[col].median() at key s: the median of the
non-null col values among rows whose subregion is s.  The key s is in the
groupby index exactly when some row carries subregion s, even when every
col value there is null (the median is then NaN, i.e. none). -/
def subregionMedian (rows : List Record) (c : ImpCol) (s : String) : Option ℚ :=
  pandasMedian (((rows.filter (fun r => r.subregion == some s)).map (getCol c)).filterMap id)

/-- df.groupby("continent")[col].median() at key s. -/
def continentMedian (rows : List Record) (c : ImpCol) (s : String) : Option ℚ :=
  pandasMedian (((rows.filter (fun r => r.continent == some s)).map (getCol c)).filterMap id)

/-- df[col].median(): median of the non-null values of the whole column. -/
def globalMedian (rows : List Record) (c : ImpCol) : Option ℚ :=
  pandasMedian ((rows.map (getCol c)).filterMap id)

/-- The mask of the subregion tier (cleaning.py line 58): still missing,
subregion non-null, and subregion among the groupby keys of df.  A record's
own membership in df makes the isin test equivalent to notna, but the source
test is kept verbatim. -/
def subregionTierHits (df : List Record) (c : ImpCol) (r : Record) : Bool :=
  (getCol c r).isNone &&
    (match r.subregion with
     | some s => df.any (fun r2 => r2.subregion == some s)
     | none => false)

/-- Fill of the subregion tier (cleaning.py line 59): rows in the mask get
their subregion's median — which is itself null when the whole subregion
group is null in this column.  df supplies the medians (the source reads
df, never the partially filled column); r is the current record. -/
def applySubregionTier (df : List Record) (c : ImpCol) (r : Record) : Record :=
  match r.subregion with
  | some s =>
      if (getCol c r).isNone && df.any (fun r2 => r2.subregion == some s) then
        setCol c r (subregionMedian df c s)
      else r
  | none => r

/-- The mask of the continent tier (cleaning.py line 66), evaluated on the
partially filled column.  The continent field is untouched by the fills, so
reading it from the current record coincides with the source's read of df. -/
def continentTierHits (df : List Record) (c : ImpCol) (r : Record) : Bool :=
  (getCol c r).isNone &&
    (match r.continent with
     | some s => df.any (fun r2 => r2.continent == some s)
     | none => false)

/-- Fill of the continent tier (cleaning.py line 67). -/
def applyContinentTier (df : List Record) (c : ImpCol) (r : Record) : Record :=
  match r.continent with
  | some s =>
      if (getCol c r).isNone && df.any (fun r2 => r2.continent == some s) then
        setCol c r (continentMedian df c s)
      else r
  | none => r

/-- Fill of the global tier (cleaning.py line 74): everything still missing
receives the global median of the column as it stands in df — possibly
null when the entire column is null. -/
def applyGlobalTier (df : List Record) (c : ImpCol) (r : Record) : Record :=
  if (getCol c r).isNone then setCol c r (globalMedian df c) else r

/-- _imputation_groupwise_median (cleaning.py lines 45-77), specialised to
groups_priority = ["subregion", "continent"], the only value the caller
passes.  The source returns the filled column which the caller assigns back
into df; here the rows are updated directly, which is the same thing.  Each
tier's counter is int(idx.sum()) over its mask; a tier is skipped as soon
as nothing is missing, mirroring the early return and the missing_idx.any()
guards. -/
def imputeRows (rows : List Record) (c : ImpCol) : List Record :=
  if (rows.map (getCol c)).all Option.isSome then rows
  else
    let t1 := rows.map (applySubregionTier rows c)
    if (t1.map (getCol c)).all Option.isSome then t1
    else
      let t2 := t1.map (applyContinentTier rows c)
      if (t2.map (getCol c)).all Option.isSome then t2
      else t2.map (applyGlobalTier rows c)

/-- The counter dict of _imputation_groupwise_median, following the same
guards as imputeRows. -/
def imputeCounts (rows : List Record) (c : ImpCol) : ImputeCounts :=
  if (rows.map (getCol c)).all Option.isSome then ⟨0, 0, 0⟩
  else
    let nSub := rows.countP (subregionTierHits rows c)
    let t1 := rows.map (applySubregionTier rows c)
    if (t1.map (getCol c)).all Option.isSome then ⟨nSub, 0, 0⟩
    else
      let nCont := t1.countP (continentTierHits rows c)
      let t2 := t1.map (applyContinentTier rows c)
      if (t2.map (getCol c)).all Option.isSome then ⟨nSub, nCont, 0⟩
      else ⟨nSub, nCont, t2.countP (fun r => (getCol c r).isNone)⟩

/-- The pair the source function returns: filled column (as updated rows)
and the counter dict. -/
def imputeGroupwiseMedian (rows : List Record) (c : ImpCol) : List Record × ImputeCounts :=
  (imputeRows rows c, imputeCounts rows c)

/-- The structured part of the cleaning report: the drop and duplicate
counters and the per-column imputation counters.  The steps list, the
non-null ratios and the describe() block of Step H are descriptive output
with no logic and are not modelled.  lifeExp_out_of_range_set_nan is
optional because the source only writes the key when the mask is
non-empty. -/
structure CleaningReport where
  dropped_missing_identifiers : ℕ
  dropped_invalid_nonpositive : ℕ
  lifeExp_out_of_range_set_nan : Option ℕ
  impute_lifeExp : ImputeCounts
  impute_gdpPercap : ImputeCounts
  dropped_missing_area_or_pop : ℕ
  deduplicated_rows : ℕ
deriving DecidableEq

/-- Comparison (series <= 0) on a nullable cell: NaN compares False, as in
pandas, which the source additionally pins down with fillna(False). -/
def isNonpositive : Option ℚ → Bool
  | some q => decide (q ≤ 0)
  | none => false

/-- The hard-drop mask of Step C (cleaning.py lines 110-115):
pop <= 0 or area_km2 <= 0 or gdpPercap <= 0, nulls never triggering. -/
def nonpositiveBad (r : Record) : Bool :=
  isNonpositive r.pop || isNonpositive r.area_km2 || isNonpositive r.gdpPercap

/-- The soft-null mask of Step C (cleaning.py line 119): lifeExp <= 0 or
lifeExp >= 120, null compares False. -/
def lifeExpOutOfRange (r : Record) : Bool :=
  match r.lifeExp with
  | some q => decide (q ≤ 0) || decide (120 ≤ q)
  | none => false

/-- The soft-null assignment of Step C (cleaning.py line 122). -/
def softNullLifeExp (r : Record) : Record :=
  if lifeExpOutOfRange r then { r with lifeExp := none } else r

/-- Count of non-null values among the four numeric columns, the
completeness score of _choose_row_with_more_non_nulls (the caller always
passes important_cols = NUMERIC_COLS). -/
def nonNullCountNumeric (r : Record) : ℕ :=
  [r.area_km2, r.pop, r.lifeExp, r.gdpPercap].countP Option.isSome

/-- One comparison step of counts.idxmax(): keep the current candidate
unless the challenger has strictly more non-nulls — idxmax returns the
first index attaining the maximum. -/
def pickMoreNonNull (best x : Record) : Record :=
  if nonNullCountNumeric best < nonNullCountNumeric x then x else best

/-- _choose_row_with_more_non_nulls (cleaning.py lines 81-84): the row at
counts.idxmax(), i.e. the first row of the group attaining the maximal
non-null count. -/
def chooseRowWithMoreNonNulls (g : List Record) : Option Record :=
  match g with
  | [] => none
  | r :: rs => some (rs.foldl pickMoreNonNull r)

/-- df["iso_a2"].duplicated().any(): some identifier occurs at least
twice. -/
def hasDupIso : List (Option String) → Bool
  | [] => false
  | x :: xs => xs.contains x || hasDupIso xs

/-- Step F (cleaning.py lines 139-150): when duplicates exist, group by
iso_a2 (dropna=False, so a null key would form a group too) and keep one
representative per group.  pandas lists groups in sorted key order; here the
distinct keys are kept in the canonical order of List.dedup — a permutation
of the rows only, and every property stated about the output is invariant
under row order. -/
def dedupByIso (rows : List Record) : List Record :=
  if hasDupIso (rows.map Record.iso_a2) then
    ((rows.map Record.iso_a2).dedup).filterMap
      (fun k => chooseRowWithMoreNonNulls (rows.filter (fun r => r.iso_a2 == k)))
  else rows

/-- Step A (cleaning.py line 96): drop rows with a missing identifier. -/
def tableA (df : List Record) : List Record :=
  df.filter (fun r => r.iso_a2.isSome && r.name_long.isSome)

/-- Step C hard drop (cleaning.py line 116), acting on the coerced table.
Step B, the numeric coercion, is modelled separately by toNumericSafe at
column level: Record already holds the coerced Option ℚ values, and the
coercion touches no identifier column, so it commutes with Step A. -/
def tableC (df : List Record) : List Record :=
  (tableA df).filter (fun r => !(nonpositiveBad r))

/-- Step C soft null (cleaning.py line 122) applied to the surviving rows. -/
def tableCsoft (df : List Record) : List Record :=
  (tableC df).map softNullLifeExp

/-- Step D after the lifeExp pass (cleaning.py lines 127-130, col="lifeExp"). -/
def tableDlife (df : List Record) : List Record :=
  (imputeGroupwiseMedian (tableCsoft df) ImpCol.lifeExp).1

/-- Step D after the gdpPercap pass, which runs on the lifeExp-updated
frame. -/
def tableD (df : List Record) : List Record :=
  (imputeGroupwiseMedian (tableDlife df) ImpCol.gdpPercap).1

/-- Step E (cleaning.py line 135): drop rows still missing area_km2 or
pop. -/
def tableE (df : List Record) : List Record :=
  (tableD df).filter (fun r => r.area_km2.isSome && r.pop.isSome)

/-- Step F applied to the pipeline state. -/
def tableF (df : List Record) : List Record :=
  dedupByIso (tableE df)

/-- Step G (cleaning.py line 153): pop_density = pop / area_km2.  In pandas
a null operand propagates to null; at the point Step G runs both operands
are in fact non-null and positive (proved below), so the none branch and
a zero divisor never materialise on pipeline output. -/
def addPopDensity (r : Record) : Record :=
  { r with pop_density :=
      match r.pop, r.area_km2 with
      | some p, some a => some (p / a)
      | _, _ => none }

/-- clean_world_data (cleaning.py lines 89-163): the cleaned table plus the
report counters.  Each length difference matches the source's
before - len(df) bookkeeping; the out-of-range key is written only when the
mask is non-empty. -/
def cleanWorldData (df_raw : List Record) : List Record × CleaningReport :=
  ((tableF df_raw).map addPopDensity,
   { dropped_missing_identifiers := df_raw.length - (tableA df_raw).length,
     dropped_invalid_nonpositive := (tableA df_raw).length - (tableC df_raw).length,
     lifeExp_out_of_range_set_nan :=
       if (tableC df_raw).countP lifeExpOutOfRange = 0 then none
       else some ((tableC df_raw).countP lifeExpOutOfRange),
     impute_lifeExp := (imputeGroupwiseMedian (tableCsoft df_raw) ImpCol.lifeExp).2,
     impute_gdpPercap := (imputeGroupwiseMedian (tableDlife df_raw) ImpCol.gdpPercap).2,
     dropped_missing_area_or_pop := (tableD df_raw).length - (tableE df_raw).length,
     deduplicated_rows := (tableE df_raw).length - (tableF df_raw).length })

/-- Proposition form of a strictly positive non-null cell. -/
def PosCell (v : Option ℚ) : Prop := ∃ q, v = some q ∧ 0 < q

/-- A nullable cell that is either null or strictly positive. -/
def NoneOrPos (v : Option ℚ) : Prop := v = none ∨ PosCell v

/-- Proposition form of the Step C comparison (cell <= 0): only a non-null
nonpositive value satisfies it, a null never does. -/
def NonposCell (v : Option ℚ) : Prop := ∃ q, v = some q ∧ q ≤ 0

/-- Proposition form of the Step C hard-drop condition. -/
def HardDrop (r : Record) : Prop :=
  NonposCell r.pop ∨ NonposCell r.area_km2 ∨ NonposCell r.gdpPercap

/-- Value of a record's column after the subregion tier, computed pointwise
from the start-of-stage medians (the re-specification of claim C10). -/
def valueAfterSubTier (rows : List Record) (c : ImpCol) (r : Record) : Option ℚ :=
  if subregionTierHits rows c r then
    match r.subregion with
    | some s => subregionMedian rows c s
    | none => none
  else getCol c r

/-- Whether the continent tier touches the record, pointwise on the
start-of-stage data. -/
def contTierHitsFromStart (rows : List Record) (c : ImpCol) (r : Record) : Bool :=
  (valueAfterSubTier rows c r).isNone &&
    (match r.continent with
     | some s => rows.any (fun r2 => r2.continent == some s)
     | none => false)

/-- Value of a record's column after the continent tier, pointwise from the
start-of-stage medians. -/
def valueAfterContTier (rows : List Record) (c : ImpCol) (r : Record) : Option ℚ :=
  if contTierHitsFromStart rows c r then
    match r.continent with
    | some s => continentMedian rows c s
    | none => none
  else valueAfterSubTier rows c r

/-- Final imputed value of a record's column, pointwise from the
start-of-stage medians. -/
def imputedValueFromStart (rows : List Record) (c : ImpCol) (r : Record) : Option ℚ :=
  if (valueAfterContTier rows c r).isNone then globalMedian rows c
  else valueAfterContTier rows c r

/-- Imputation re-specified by the words of claim C10: the subregion,
continent and global medians are all taken from the column as it stood at
the start of the column's imputation, each record's final value is computed
in one pass from those start-of-stage medians, and each tier's counter
counts the records its mask hits on the start-of-stage data. -/
def imputeFromStartMedians (rows : List Record) (c : ImpCol) : List Record × ImputeCounts :=
  (rows.map (fun r => setCol c r (imputedValueFromStart rows c r)),
   ⟨rows.countP (subregionTierHits rows c),
    rows.countP (contTierHitsFromStart rows c),
    rows.countP (fun r => (valueAfterContTier rows c r).isNone)⟩)

/-- Which of the required columns are present in the raw input's schema.
Cell values live in Record regardless of the flags; a false flag means any
df[col] access in the source raises KeyError naming that column. -/
structure ColumnSet where
  iso_a2 : Bool
  name_long : Bool
  area_km2 : Bool
  pop : Bool
  lifeExp : Bool
  gdpPercap : Bool
  continent : Bool
  subregion : Bool
deriving DecidableEq

/-- All required columns of claim C9 present: identifiers, the four numeric
columns and the two grouping columns. -/
def ColumnSet.complete (cols : ColumnSet) : Bool :=
  cols.iso_a2 && cols.name_long && cols.area_km2 && cols.pop && cols.lifeExp &&
    cols.gdpPercap && cols.continent && cols.subregion

/-- Names of the absent columns, for relating error payloads to the
schema. -/
def absentCols (cols : ColumnSet) : List String :=
  (if cols.iso_a2 then [] else ["iso_a2"]) ++
    (if cols.name_long then [] else ["name_long"]) ++
    (if cols.area_km2 then [] else ["area_km2"]) ++
    (if cols.pop then [] else ["pop"]) ++
    (if cols.lifeExp then [] else ["lifeExp"]) ++
    (if cols.gdpPercap then [] else ["gdpPercap"]) ++
    (if cols.continent then [] else ["continent"]) ++
    (if cols.subregion then [] else ["subregion"])

/-- The identifier columns df.dropna(subset=IDENTIFIER_COLS) would report
missing from the frame, in IDENTIFIER_COLS order (pandas raises one
KeyError listing them all). -/
def missingIdentifierCols (cols : ColumnSet) : List String :=
  (if cols.iso_a2 then [] else ["iso_a2"]) ++
    (if cols.name_long then [] else ["name_long"])

/-- Whether _imputation_groupwise_median raises on a frame with the given
schema, and the column its KeyError names: the early return means
groupby("subregion") only runs when some value is missing, and
groupby("continent") only when some value is still missing after the
subregion fill. -/
def imputeKeyError (cols : ColumnSet) (rows : List Record) (c : ImpCol) :
    Option (List String) :=
  if (rows.map (getCol c)).all Option.isSome then none
  else if cols.subregion = false then some ["subregion"]
  else if ((rows.map (applySubregionTier rows c)).map (getCol c)).all Option.isSome then none
  else if cols.continent = false then some ["continent"]
  else none

/-- clean_world_data with the source's failure behaviour made explicit.
Step A's dropna(subset=...) raises first, naming every missing identifier
column; building the Step C mask evaluates df["pop"], df["area_km2"],
df["gdpPercap"] then df["lifeExp"] in that order, so the first absent one is
named; Step B's loop guards each column with an if-in-columns test and never
raises; the grouping columns are only touched inside the imputation calls.
Steps E-H only read columns whose presence earlier steps already forced. -/
def cleanWorldDataChecked (cols : ColumnSet) (df : List Record) :
    Except (List String) (List Record × CleaningReport) :=
  if missingIdentifierCols cols ≠ [] then .error (missingIdentifierCols cols)
  else if cols.pop = false then .error ["pop"]
  else if cols.area_km2 = false then .error ["area_km2"]
  else if cols.gdpPercap = false then .error ["gdpPercap"]
  else if cols.lifeExp = false then .error ["lifeExp"]
  else
    match imputeKeyError cols (tableCsoft df) ImpCol.lifeExp with
    | some errs => .error errs
    | none =>
        match imputeKeyError cols (tableDlife df) ImpCol.gdpPercap with
        | some errs => .error errs
        | none => .ok (cleanWorldData df)

/-- Row with a null gdpPercap in a table whose gdpPercap column is entirely
null, the edge case of spec section 7. -/
def rowGdpAllNull : Record :=
  { iso_a2 := some "AA", name_long := some "Alfa", continent := none, subregion := none,
    area_km2 := some 1, pop := some 1, lifeExp := some 50, gdpPercap := none }

/-- Row carrying the only non-null lifeExp of its table, doomed at Step A
by its missing iso_a2. -/
def rowLifeOnDropped : Record :=
  { iso_a2 := none, name_long := some "Foxtrot", continent := none, subregion := none,
    area_km2 := some 1, pop := some 1, lifeExp := some 50, gdpPercap := some 1 }

/-- Row surviving to the output with a lifeExp that nothing can impute once
rowLifeOnDropped is gone. -/
def rowLifeNullKept : Record :=
  { iso_a2 := some "AA", name_long := some "Alfa", continent := none, subregion := none,
    area_km2 := some 1, pop := some 1, lifeExp := none, gdpPercap := some 1 }

/-- First-in-input duplicate whose only gap, lifeExp, is filled by
imputation before deduplication ever looks. -/
def rowDupFirst : Record :=
  { iso_a2 := some "AA", name_long := some "First", continent := some "Europe",
    subregion := some "Western Europe", area_km2 := some 1000, pop := some 1000000,
    lifeExp := none, gdpPercap := some 50000 }

/-- Fully-populated duplicate, second in input order. -/
def rowDupSecond : Record :=
  { iso_a2 := some "AA", name_long := some "Second", continent := some "Europe",
    subregion := some "Western Europe", area_km2 := some 1000, pop := some 1000000,
    lifeExp := some 80, gdpPercap := some 50000 }

/-- Record whose subregion group holds no non-null lifeExp at all: the
groupby median over the group is NaN yet the group key sits in the median
index. -/
def rowSubAllNull : Record :=
  { iso_a2 := some "SS", name_long := some "Sole", continent := some "C",
    subregion := some "S", area_km2 := some 1, pop := some 1,
    lifeExp := none, gdpPercap := some 1 }

/-- Record in a sibling subregion of the same continent supplying the
continent median. -/
def rowSubDonor : Record :=
  { iso_a2 := some "TT", name_long := some "Donor", continent := some "C",
    subregion := some "T", area_km2 := some 1, pop := some 1,
    lifeExp := some 50, gdpPercap := some 1 }

/-- A complete schema. -/
def colsAll : ColumnSet := ⟨true, true, true, true, true, true, true, true⟩

/-- A schema lacking only the subregion grouping column. -/
def colsNoSubregion : ColumnSet := ⟨true, true, true, true, true, true, true, false⟩

/-- Relation between a record and its image under imputation tiers: either
untouched, or exactly column c rewritten. -/
def ShapeOf (c : ImpCol) (r r2 : Record) : Prop :=
  r2 = r ∨ ∃ v, r2 = setCol c r v

/-- Invariant established by Steps A and C and preserved to Step E:
identifiers present, the three hard-filtered numeric cells null or
positive. -/
def GoodEntry (r : Record) : Prop :=
  r.iso_a2.isSome ∧ r.name_long.isSome ∧ NoneOrPos r.area_km2 ∧ NoneOrPos r.pop ∧
    NoneOrPos r.gdpPercap

/-- Fully populated single row used to instantiate proved theorems. -/
def rowWitnessFull : Record :=
  { iso_a2 := some "WW", name_long := some "Witness", continent := none, subregion := none,
    area_km2 := some 2, pop := some 6, lifeExp := some 70, gdpPercap := some 5 }

/-- Duplicate pair: the first-in-input record misses pop, the second is
fully populated. -/
def rowPopNullFirst : Record :=
  { iso_a2 := some "AA", name_long := some "PopNull", continent := some "Europe",
    subregion := some "Western Europe", area_km2 := some 1000, pop := none,
    lifeExp := some 80, gdpPercap := some 50000 }

/-- Fully populated companion of rowPopNullFirst. -/
def rowPopFull : Record :=
  { iso_a2 := some "AA", name_long := some "Full", continent := some "Europe",
    subregion := some "Western Europe", area_km2 := some 1000, pop := some 1000000,
    lifeExp := some 80, gdpPercap := some 50000 }

/-- Row with an out-of-range life expectancy of 140. -/
def rowOutOfRange : Record :=
  { iso_a2 := some "DD", name_long := some "Delta", continent := none, subregion := none,
    area_km2 := some 4000, pop := some 500000, lifeExp := some 140, gdpPercap := some 1800 }

lemma mem_of_insertionSort {xs : List ℚ} {x : ℚ} (h : x ∈ xs.insertionSort (· ≤ ·)) :
    x ∈ xs :=
  (List.perm_insertionSort _ xs).mem_iff.mp h

lemma length_insertionSort (xs : List ℚ) : (xs.insertionSort (· ≤ ·)).length = xs.length :=
  (List.perm_insertionSort _ xs).length_eq

lemma pandasMedian_isSome {xs : List ℚ} (h : xs ≠ []) : (pandasMedian xs).isSome := by
  have hlen : (xs.insertionSort (· ≤ ·)).length = xs.length := length_insertionSort xs
  have hpos : 0 < xs.length := List.length_pos.mpr h
  rw [pandasMedian]
  by_cases hodd : (xs.insertionSort (· ≤ ·)).length % 2 = 1
  · rw [if_pos hodd]
    have hlt : (xs.insertionSort (· ≤ ·)).length / 2 < (xs.insertionSort (· ≤ ·)).length := by
      omega
    rw [List.get?_eq_get hlt]
    rfl
  · rw [if_neg hodd]
    have ha : (xs.insertionSort (· ≤ ·)).length / 2 - 1 < (xs.insertionSort (· ≤ ·)).length := by
      omega
    have hb : (xs.insertionSort (· ≤ ·)).length / 2 < (xs.insertionSort (· ≤ ·)).length := by
      omega
    rw [List.get?_eq_get ha, List.get?_eq_get hb]
    rfl

lemma pandasMedian_pos {xs : List ℚ} (hpos : ∀ x ∈ xs, 0 < x) {m : ℚ}
    (hm : pandasMedian xs = some m) : 0 < m := by
  rw [pandasMedian] at hm
  by_cases hodd : (xs.insertionSort (· ≤ ·)).length % 2 = 1
  · rw [if_pos hodd] at hm
    exact hpos m (mem_of_insertionSort (List.get?_mem hm))
  · rw [if_neg hodd] at hm
    rcases h1 : (xs.insertionSort (· ≤ ·)).get? ((xs.insertionSort (· ≤ ·)).length / 2 - 1) with
      _ | a
    · rw [h1] at hm
      rcases h2 : (xs.insertionSort (· ≤ ·)).get? ((xs.insertionSort (· ≤ ·)).length / 2) with
        _ | b <;> rw [h2] at hm <;> cases hm
    · rcases h2 : (xs.insertionSort (· ≤ ·)).get? ((xs.insertionSort (· ≤ ·)).length / 2) with
        _ | b
      · rw [h1, h2] at hm
        cases hm
      · rw [h1, h2] at hm
        have hac : 0 < a := hpos a (mem_of_insertionSort (List.get?_mem h1))
        have hbc : 0 < b := hpos b (mem_of_insertionSort (List.get?_mem h2))
        have : (a + b) / 2 = m := by injection hm
        rw [← this]
        positivity

lemma pandasMedian_noneOrPos {xs : List ℚ} (hpos : ∀ x ∈ xs, 0 < x) :
    NoneOrPos (pandasMedian xs) := by
  rcases hm : pandasMedian xs with _ | m
  · exact Or.inl rfl
  · exact Or.inr ⟨m, rfl, pandasMedian_pos hpos hm⟩

lemma getCol_setCol (c : ImpCol) (r : Record) (v : Option ℚ) :
    getCol c (setCol c r v) = v := by
  cases c <;> rfl

lemma setCol_self (c : ImpCol) (r : Record) : setCol c r (getCol c r) = r := by
  cases c <;> rfl

lemma setCol_setCol (c : ImpCol) (r : Record) (v w : Option ℚ) :
    setCol c (setCol c r v) w = setCol c r w := by
  cases c <;> rfl

lemma setCol_iso_a2 (c : ImpCol) (r : Record) (v : Option ℚ) :
    (setCol c r v).iso_a2 = r.iso_a2 := by cases c <;> rfl

lemma setCol_name_long (c : ImpCol) (r : Record) (v : Option ℚ) :
    (setCol c r v).name_long = r.name_long := by cases c <;> rfl

lemma setCol_continent (c : ImpCol) (r : Record) (v : Option ℚ) :
    (setCol c r v).continent = r.continent := by cases c <;> rfl

lemma setCol_subregion (c : ImpCol) (r : Record) (v : Option ℚ) :
    (setCol c r v).subregion = r.subregion := by cases c <;> rfl

lemma setCol_area_km2 (c : ImpCol) (r : Record) (v : Option ℚ) :
    (setCol c r v).area_km2 = r.area_km2 := by cases c <;> rfl

lemma setCol_pop (c : ImpCol) (r : Record) (v : Option ℚ) :
    (setCol c r v).pop = r.pop := by cases c <;> rfl

lemma setCol_pop_density (c : ImpCol) (r : Record) (v : Option ℚ) :
    (setCol c r v).pop_density = r.pop_density := by cases c <;> rfl

lemma getCol_setCol_other {c cx : ImpCol} (h : cx ≠ c) (r : Record) (v : Option ℚ) :
    getCol cx (setCol c r v) = getCol cx r := by
  cases c <;> cases cx <;> first | rfl | exact absurd rfl h

lemma shapeOf_rfl (c : ImpCol) (r : Record) : ShapeOf c r r := Or.inl rfl

lemma shapeOf_trans {c : ImpCol} {r r2 r3 : Record} (h1 : ShapeOf c r r2)
    (h2 : ShapeOf c r2 r3) : ShapeOf c r r3 := by
  rcases h1 with rfl | ⟨v, rfl⟩
  · exact h2
  · rcases h2 with rfl | ⟨w, rfl⟩
    · exact Or.inr ⟨v, rfl⟩
    · exact Or.inr ⟨w, setCol_setCol c r v w⟩

lemma applySubregionTier_shape (df : List Record) (c : ImpCol) (r : Record) :
    ShapeOf c r (applySubregionTier df c r) := by
  unfold applySubregionTier
  split
  · split
    · exact Or.inr ⟨_, rfl⟩
    · exact shapeOf_rfl c r
  · exact shapeOf_rfl c r

lemma applyContinentTier_shape (df : List Record) (c : ImpCol) (r : Record) :
    ShapeOf c r (applyContinentTier df c r) := by
  unfold applyContinentTier
  split
  · split
    · exact Or.inr ⟨_, rfl⟩
    · exact shapeOf_rfl c r
  · exact shapeOf_rfl c r

lemma applyGlobalTier_shape (df : List Record) (c : ImpCol) (r : Record) :
    ShapeOf c r (applyGlobalTier df c r) := by
  unfold applyGlobalTier
  split
  · exact Or.inr ⟨_, rfl⟩
  · exact shapeOf_rfl c r

lemma imputeRows_shape {rows : List Record} {c : ImpCol} :
    ∀ r2 ∈ imputeRows rows c, ∃ r ∈ rows, ShapeOf c r r2 := by
  intro r2 h
  simp only [imputeRows] at h
  split_ifs at h with h1 h2 h3
  · exact ⟨r2, h, shapeOf_rfl c r2⟩
  · rcases List.mem_map.mp h with ⟨r, hr, rfl⟩
    exact ⟨r, hr, applySubregionTier_shape rows c r⟩
  · rcases List.mem_map.mp h with ⟨r1, hr1, rfl⟩
    rcases List.mem_map.mp hr1 with ⟨r, hr, rfl⟩
    exact ⟨r, hr, shapeOf_trans (applySubregionTier_shape rows c r)
      (applyContinentTier_shape rows c _)⟩
  · rcases List.mem_map.mp h with ⟨r2, hr2, rfl⟩
    rcases List.mem_map.mp hr2 with ⟨r1, hr1, rfl⟩
    rcases List.mem_map.mp hr1 with ⟨r, hr, rfl⟩
    exact ⟨r, hr, shapeOf_trans (shapeOf_trans (applySubregionTier_shape rows c r)
      (applyContinentTier_shape rows c _)) (applyGlobalTier_shape rows c _)⟩

lemma subregionMedian_noneOrPos {rows : List Record} {c : ImpCol}
    (h : ∀ r ∈ rows, NoneOrPos (getCol c r)) (s : String) :
    NoneOrPos (subregionMedian rows c s) := by
  apply pandasMedian_noneOrPos
  intro x hx
  rcases List.mem_filterMap.mp hx with ⟨v, hv, hid⟩
  rcases List.mem_map.mp hv with ⟨r, hr, rfl⟩
  rcases h r (List.mem_filter.mp hr).1 with hnone | ⟨q, hq, hqpos⟩
  · rw [hnone] at hid
    cases hid
  · rw [hq] at hid
    cases hid
    exact hqpos

lemma continentMedian_noneOrPos {rows : List Record} {c : ImpCol}
    (h : ∀ r ∈ rows, NoneOrPos (getCol c r)) (s : String) :
    NoneOrPos (continentMedian rows c s) := by
  apply pandasMedian_noneOrPos
  intro x hx
  rcases List.mem_filterMap.mp hx with ⟨v, hv, hid⟩
  rcases List.mem_map.mp hv with ⟨r, hr, rfl⟩
  rcases h r (List.mem_filter.mp hr).1 with hnone | ⟨q, hq, hqpos⟩
  · rw [hnone] at hid
    cases hid
  · rw [hq] at hid
    cases hid
    exact hqpos

lemma globalMedian_noneOrPos {rows : List Record} {c : ImpCol}
    (h : ∀ r ∈ rows, NoneOrPos (getCol c r)) :
    NoneOrPos (globalMedian rows c) := by
  apply pandasMedian_noneOrPos
  intro x hx
  rcases List.mem_filterMap.mp hx with ⟨v, hv, hid⟩
  rcases List.mem_map.mp hv with ⟨r, hr, rfl⟩
  rcases h r hr with hnone | ⟨q, hq, hqpos⟩
  · rw [hnone] at hid
    cases hid
  · rw [hq] at hid
    cases hid
    exact hqpos

lemma applySubregionTier_noneOrPos {rows : List Record} {c : ImpCol} {r : Record}
    (hall : ∀ x ∈ rows, NoneOrPos (getCol c x)) (hr : NoneOrPos (getCol c r)) :
    NoneOrPos (getCol c (applySubregionTier rows c r)) := by
  unfold applySubregionTier
  split
  · split
    · rw [getCol_setCol]
      exact subregionMedian_noneOrPos hall _
    · exact hr
  · exact hr

lemma applyContinentTier_noneOrPos {rows : List Record} {c : ImpCol} {r : Record}
    (hall : ∀ x ∈ rows, NoneOrPos (getCol c x)) (hr : NoneOrPos (getCol c r)) :
    NoneOrPos (getCol c (applyContinentTier rows c r)) := by
  unfold applyContinentTier
  split
  · split
    · rw [getCol_setCol]
      exact continentMedian_noneOrPos hall _
    · exact hr
  · exact hr

lemma applyGlobalTier_noneOrPos {rows : List Record} {c : ImpCol} {r : Record}
    (hall : ∀ x ∈ rows, NoneOrPos (getCol c x)) (hr : NoneOrPos (getCol c r)) :
    NoneOrPos (getCol c (applyGlobalTier rows c r)) := by
  unfold applyGlobalTier
  split
  · rw [getCol_setCol]
    exact globalMedian_noneOrPos hall
  · exact hr

lemma imputeRows_noneOrPos {rows : List Record} {c : ImpCol}
    (h : ∀ r ∈ rows, NoneOrPos (getCol c r)) :
    ∀ r2 ∈ imputeRows rows c, NoneOrPos (getCol c r2) := by
  have h1 : ∀ r2 ∈ rows.map (applySubregionTier rows c), NoneOrPos (getCol c r2) := by
    intro r2 hr2
    rcases List.mem_map.mp hr2 with ⟨r, hr, rfl⟩
    exact applySubregionTier_noneOrPos h (h r hr)
  have h2 : ∀ r2 ∈ (rows.map (applySubregionTier rows c)).map (applyContinentTier rows c),
      NoneOrPos (getCol c r2) := by
    intro r2 hr2
    rcases List.mem_map.mp hr2 with ⟨r, hr, rfl⟩
    exact applyContinentTier_noneOrPos h (h1 r hr)
  intro r2 hr2
  simp only [imputeRows] at hr2
  split_ifs at hr2 with ha hb hc
  · exact h r2 hr2
  · exact h1 r2 hr2
  · exact h2 r2 hr2
  · rcases List.mem_map.mp hr2 with ⟨r, hr, rfl⟩
    exact applyGlobalTier_noneOrPos h (h2 r hr)

lemma globalMedian_isSome {rows : List Record} {c : ImpCol}
    (h : ∃ r ∈ rows, (getCol c r).isSome) : (globalMedian rows c).isSome := by
  apply pandasMedian_isSome
  rcases h with ⟨r, hr, hs⟩
  rcases Option.isSome_iff_exists.mp hs with ⟨q, hq⟩
  intro hnil
  have hq2 : q ∈ (rows.map (getCol c)).filterMap id :=
    List.mem_filterMap.mpr ⟨getCol c r, List.mem_map_of_mem _ hr, by rw [hq]; rfl⟩
  rw [hnil] at hq2
  cases hq2

lemma imputeRows_total {rows : List Record} {c : ImpCol}
    (h : ∃ r ∈ rows, (getCol c r).isSome) :
    ∀ r2 ∈ imputeRows rows c, (getCol c r2).isSome := by
  intro r2 hr2
  simp only [imputeRows] at hr2
  split_ifs at hr2 with ha hb hc
  · exact List.all_eq_true.mp ha _ (List.mem_map_of_mem _ hr2)
  · exact List.all_eq_true.mp hb _ (List.mem_map_of_mem _ hr2)
  · exact List.all_eq_true.mp hc _ (List.mem_map_of_mem _ hr2)
  · rcases List.mem_map.mp hr2 with ⟨r, hr, rfl⟩
    unfold applyGlobalTier
    split
    · rw [getCol_setCol]
      exact globalMedian_isSome h
    · next hcond =>
        rw [Option.isSome_iff_ne_none]
        simpa [Option.isNone_iff_eq_none] using hcond

lemma shapeOf_fields {c : ImpCol} {r r2 : Record} (h : ShapeOf c r r2) :
    r2.iso_a2 = r.iso_a2 ∧ r2.name_long = r.name_long ∧ r2.continent = r.continent ∧
      r2.subregion = r.subregion ∧ r2.area_km2 = r.area_km2 ∧ r2.pop = r.pop ∧
      r2.pop_density = r.pop_density ∧ ∀ cx, cx ≠ c → getCol cx r2 = getCol cx r := by
  rcases h with rfl | ⟨v, rfl⟩
  · exact ⟨rfl, rfl, rfl, rfl, rfl, rfl, rfl, fun _ _ => rfl⟩
  · exact ⟨setCol_iso_a2 c r v, setCol_name_long c r v, setCol_continent c r v,
      setCol_subregion c r v, setCol_area_km2 c r v, setCol_pop c r v,
      setCol_pop_density c r v, fun cx hx => getCol_setCol_other hx r v⟩

lemma mem_tableA {df : List Record} {r : Record} (h : r ∈ tableA df) :
    r ∈ df ∧ r.iso_a2.isSome ∧ r.name_long.isSome := by
  rcases List.mem_filter.mp h with ⟨h1, h2⟩
  simp only [Bool.and_eq_true] at h2
  exact ⟨h1, h2.1, h2.2⟩

lemma mem_tableC {df : List Record} {r : Record} (h : r ∈ tableC df) :
    r ∈ tableA df ∧ nonpositiveBad r = false := by
  rcases List.mem_filter.mp h with ⟨h1, h2⟩
  exact ⟨h1, by simpa using h2⟩

lemma softNullLifeExp_fields (r : Record) :
    (softNullLifeExp r).iso_a2 = r.iso_a2 ∧ (softNullLifeExp r).name_long = r.name_long ∧
      (softNullLifeExp r).continent = r.continent ∧
      (softNullLifeExp r).subregion = r.subregion ∧
      (softNullLifeExp r).area_km2 = r.area_km2 ∧ (softNullLifeExp r).pop = r.pop ∧
      (softNullLifeExp r).gdpPercap = r.gdpPercap ∧
      (softNullLifeExp r).pop_density = r.pop_density := by
  unfold softNullLifeExp
  split <;> exact ⟨rfl, rfl, rfl, rfl, rfl, rfl, rfl, rfl⟩

lemma isNonpositive_false_noneOrPos {v : Option ℚ} (h : isNonpositive v = false) :
    NoneOrPos v := by
  rcases v with _ | q
  · exact Or.inl rfl
  · refine Or.inr ⟨q, rfl, ?_⟩
    have : ¬q ≤ 0 := by simpa [isNonpositive] using h
    exact lt_of_not_le this

lemma tableCsoft_good {df : List Record} : ∀ r ∈ tableCsoft df, GoodEntry r := by
  intro r hr
  rcases List.mem_map.mp hr with ⟨r0, hr0, rfl⟩
  obtain ⟨hC, hbad⟩ := mem_tableC hr0
  obtain ⟨-, hiso, hname⟩ := mem_tableA hC
  simp only [nonpositiveBad, Bool.or_eq_false_iff] at hbad
  obtain ⟨f0, hiso2, hname2, hcont, hsub, harea, hpop, hgdp, hpd⟩ :=
    And.intro True.intro (softNullLifeExp_fields r0)
  refine ⟨?_, ?_, ?_, ?_, ?_⟩
  · rw [hiso2]; exact hiso
  · rw [hname2]; exact hname
  · rw [harea]; exact isNonpositive_false_noneOrPos hbad.1.2
  · rw [hpop]; exact isNonpositive_false_noneOrPos hbad.1.1
  · rw [hgdp]; exact isNonpositive_false_noneOrPos hbad.2

lemma imputeRows_preserves_good {rows : List Record} {c : ImpCol}
    (h : ∀ r ∈ rows, GoodEntry r) : ∀ r2 ∈ imputeRows rows c, GoodEntry r2 := by
  intro r2 h2
  obtain ⟨r, hr, hs⟩ := imputeRows_shape r2 h2
  obtain ⟨hiso, hname, -, -, harea, hpop, -, hother⟩ := shapeOf_fields hs
  obtain ⟨giso, gname, garea, gpop, ggdp⟩ := h r hr
  refine ⟨by rw [hiso]; exact giso, by rw [hname]; exact gname,
    by rw [harea]; exact garea, by rw [hpop]; exact gpop, ?_⟩
  cases c with
  | lifeExp =>
      have hg := hother ImpCol.gdpPercap (by intro hx; cases hx)
      simp only [getCol] at hg
      rw [hg]
      exact ggdp
  | gdpPercap =>
      have hgdpAll : ∀ x ∈ rows, NoneOrPos (getCol ImpCol.gdpPercap x) :=
        fun x hx => (h x hx).2.2.2.2
      exact imputeRows_noneOrPos hgdpAll r2 h2

lemma tableD_good {df : List Record} : ∀ r ∈ tableD df, GoodEntry r := by
  intro r hr
  have h1 : ∀ x ∈ tableDlife df, GoodEntry x :=
    imputeRows_preserves_good tableCsoft_good
  exact imputeRows_preserves_good h1 r hr

lemma noneOrPos_isSome_pos {v : Option ℚ} (h1 : NoneOrPos v) (h2 : v.isSome) : PosCell v := by
  rcases h1 with rfl | hp
  · cases h2
  · exact hp

lemma mem_tableE {df : List Record} {r : Record} (h : r ∈ tableE df) :
    r ∈ tableD df ∧ r.area_km2.isSome ∧ r.pop.isSome := by
  rcases List.mem_filter.mp h with ⟨h1, h2⟩
  simp only [Bool.and_eq_true] at h2
  exact ⟨h1, h2.1, h2.2⟩

lemma tableE_good {df : List Record} : ∀ r ∈ tableE df,
    r.iso_a2.isSome ∧ r.name_long.isSome ∧ PosCell r.area_km2 ∧ PosCell r.pop ∧
      NoneOrPos r.gdpPercap := by
  intro r hr
  obtain ⟨hD, hsa, hsp⟩ := mem_tableE hr
  obtain ⟨giso, gname, garea, gpop, ggdp⟩ := tableD_good r hD
  exact ⟨giso, gname, noneOrPos_isSome_pos garea hsa, noneOrPos_isSome_pos gpop hsp, ggdp⟩

lemma foldl_pick_spec (rs : List Record) (b : Record) :
    (∀ x ∈ rs, nonNullCountNumeric x ≤ nonNullCountNumeric (rs.foldl pickMoreNonNull b)) ∧
      nonNullCountNumeric b ≤ nonNullCountNumeric (rs.foldl pickMoreNonNull b) ∧
      (rs.foldl pickMoreNonNull b = b ∨
        ∃ l1 l2, rs = l1 ++ (rs.foldl pickMoreNonNull b) :: l2 ∧
          nonNullCountNumeric b < nonNullCountNumeric (rs.foldl pickMoreNonNull b) ∧
          ∀ x ∈ l1, nonNullCountNumeric x < nonNullCountNumeric (rs.foldl pickMoreNonNull b)) := by
  induction rs generalizing b with
  | nil => exact ⟨(by intro x hx; cases hx), le_refl _, Or.inl rfl⟩
  | cons x xs ih =>
      rw [List.foldl_cons]
      by_cases hlt : nonNullCountNumeric b < nonNullCountNumeric x
      · have hpick : pickMoreNonNull b x = x := if_pos hlt
        rw [hpick]
        obtain ⟨hmax, hself, hor⟩ := ih x
        refine ⟨?_, ?_, ?_⟩
        · intro y hy
          rcases List.mem_cons.mp hy with rfl | hy2
          · exact hself
          · exact hmax y hy2
        · exact le_of_lt (lt_of_lt_of_le hlt hself)
        · rcases hor with heq | ⟨l1, l2, hsplit, hstrict, hl1⟩
          · refine Or.inr ⟨[], xs, by simp [heq], ?_, (by intro y hy; cases hy)⟩
            rw [heq]; exact hlt
          · refine Or.inr ⟨x :: l1, l2, by rw [List.cons_append, ← hsplit], ?_, ?_⟩
            · exact lt_trans hlt hstrict
            · intro y hy
              rcases List.mem_cons.mp hy with rfl | hy2
              · exact hstrict
              · exact hl1 y hy2
      · have hpick : pickMoreNonNull b x = b := if_neg hlt
        rw [hpick]
        obtain ⟨hmax, hself, hor⟩ := ih b
        refine ⟨?_, hself, ?_⟩
        · intro y hy
          rcases List.mem_cons.mp hy with rfl | hy2
          · exact le_trans (le_of_not_lt hlt) hself
          · exact hmax y hy2
        · rcases hor with heq | ⟨l1, l2, hsplit, hstrict, hl1⟩
          · exact Or.inl heq
          · refine Or.inr ⟨x :: l1, l2, by rw [List.cons_append, ← hsplit], hstrict, ?_⟩
            intro y hy
            rcases List.mem_cons.mp hy with rfl | hy2
            · exact lt_of_le_of_lt (le_of_not_lt hlt) hstrict
            · exact hl1 y hy2

lemma chooseRow_spec {g : List Record} {r : Record}
    (h : chooseRowWithMoreNonNulls g = some r) :
    ∃ l1 l2, g = l1 ++ r :: l2 ∧
      (∀ x ∈ l1, nonNullCountNumeric x < nonNullCountNumeric r) ∧
      ∀ x ∈ g, nonNullCountNumeric x ≤ nonNullCountNumeric r := by
  rcases g with _ | ⟨r0, rs⟩
  · cases h
  · simp only [chooseRowWithMoreNonNulls, Option.some_inj] at h
    obtain ⟨hmax, hself, hor⟩ := foldl_pick_spec rs r0
    rw [h] at hmax hself hor
    rcases hor with heq | ⟨l1, l2, hsplit, hstrict, hl1⟩
    · refine ⟨[], rs, by simp [heq], (by intro y hy; cases hy), ?_⟩
      intro y hy
      rcases List.mem_cons.mp hy with rfl | hy2
      · exact hself
      · exact hmax y hy2
    · refine ⟨r0 :: l1, l2, by rw [List.cons_append, ← hsplit], ?_, ?_⟩
      · intro y hy
        rcases List.mem_cons.mp hy with rfl | hy2
        · exact hstrict
        · exact hl1 y hy2
      · intro y hy
        rcases List.mem_cons.mp hy with rfl | hy2
        · exact hself
        · exact hmax y hy2

lemma chooseRow_mem {g : List Record} {r : Record}
    (h : chooseRowWithMoreNonNulls g = some r) : r ∈ g := by
  obtain ⟨l1, l2, hsplit, -, -⟩ := chooseRow_spec h
  rw [hsplit]
  exact List.mem_append.mpr (Or.inr (List.mem_cons_self _ _))

lemma chooseRow_isSome {g : List Record} (h : g ≠ []) :
    (chooseRowWithMoreNonNulls g).isSome := by
  rcases g with _ | ⟨r0, rs⟩
  · exact absurd rfl h
  · rfl

lemma chooseRow_key {rows : List Record} {k : Option String} {r : Record}
    (h : chooseRowWithMoreNonNulls (rows.filter (fun x => x.iso_a2 == k)) = some r) :
    r.iso_a2 = k := by
  have hm := (List.mem_filter.mp (chooseRow_mem h)).2
  exact eq_of_beq hm

lemma groupOf_ne_nil {rows : List Record} {k : Option String}
    (hk : k ∈ rows.map Record.iso_a2) :
    rows.filter (fun x => x.iso_a2 == k) ≠ [] := by
  rcases List.mem_map.mp hk with ⟨r, hr, rfl⟩
  intro hnil
  have hmem : r ∈ rows.filter (fun x => x.iso_a2 == r.iso_a2) :=
    List.mem_filter.mpr ⟨hr, by simp⟩
  rw [hnil] at hmem
  cases hmem

lemma dedup_keys_map (rows : List Record) :
    ∀ ks : List (Option String), (∀ k ∈ ks, k ∈ rows.map Record.iso_a2) →
      (ks.filterMap
          (fun k => chooseRowWithMoreNonNulls (rows.filter (fun x => x.iso_a2 == k)))).map
        Record.iso_a2 = ks := by
  intro ks
  induction ks with
  | nil => intro _; rfl
  | cons k ks ih =>
      intro hks
      have hne := groupOf_ne_nil (hks k (List.mem_cons_self _ _))
      rcases hsome : chooseRowWithMoreNonNulls (rows.filter (fun x => x.iso_a2 == k)) with
        _ | r
      · have := chooseRow_isSome hne
        rw [hsome] at this
        cases this
      · simp only [List.filterMap_cons, hsome, List.map_cons]
        rw [chooseRow_key hsome, ih (fun x hx => hks x (List.mem_cons_of_mem _ hx))]

lemma dedupByIso_mem {rows : List Record} {r : Record} (h : r ∈ dedupByIso rows) :
    r ∈ rows := by
  unfold dedupByIso at h
  split_ifs at h with hd
  · rcases List.mem_filterMap.mp h with ⟨k, hk, hch⟩
    exact (List.mem_filter.mp (chooseRow_mem hch)).1
  · exact h

lemma hasDupIso_false_iff (l : List (Option String)) : hasDupIso l = false ↔ l.Nodup := by
  induction l with
  | nil => simp [hasDupIso]
  | cons x xs ih =>
      simp only [hasDupIso, Bool.or_eq_false_iff, List.nodup_cons, ih]
      constructor
      · rintro ⟨h1, h2⟩
        refine ⟨fun hmem => ?_, h2⟩
        rw [List.contains_eq_any_beq] at h1
        have : xs.any (x == ·) = true := List.any_eq_true.mpr ⟨x, hmem, by simp⟩
        rw [this] at h1
        cases h1
      · rintro ⟨h1, h2⟩
        refine ⟨?_, h2⟩
        rw [List.contains_eq_any_beq]
        rw [Bool.eq_false_iff]
        intro hany
        rcases List.any_eq_true.mp hany with ⟨y, hy, hbeq⟩
        exact h1 (eq_of_beq hbeq ▸ hy)

lemma dedupByIso_iso_nodup (rows : List Record) :
    ((dedupByIso rows).map Record.iso_a2).Nodup := by
  unfold dedupByIso
  split_ifs with hd
  · rw [dedup_keys_map rows _ (fun k hk => List.mem_dedup.mp hk)]
    exact List.nodup_dedup _
  · exact (hasDupIso_false_iff _).mp (by simpa using hd)

lemma countP_beq_eq_one_of_nodup_mem {l : List (Option String)} (hnd : l.Nodup)
    {k : Option String} (hk : k ∈ l) : l.countP (fun i => i == k) = 1 := by
  induction l with
  | nil => cases hk
  | cons x xs ih =>
      rw [List.nodup_cons] at hnd
      rcases List.mem_cons.mp hk with rfl | hmem
      · rw [List.countP_cons_of_pos _ _ (by simp)]
        have hz : xs.countP (fun i => i == k) = 0 := by
          rw [List.countP_eq_zero]
          intro a ha hbeq
          exact hnd.1 ((eq_of_beq hbeq).symm ▸ ha)
        rw [hz]
      · have hxk : (x == k) = false := by
          rw [Bool.eq_false_iff]
          intro hbeq
          exact hnd.1 (eq_of_beq hbeq ▸ hmem)
        rw [List.countP_cons_of_neg _ _ (by simp [hxk])]
        exact ih hnd.2 hmem

lemma filter_key_singleton {rows : List Record} (hnd : (rows.map Record.iso_a2).Nodup)
    {k : Option String} (hk : k ∈ rows.map Record.iso_a2) :
    ∃ r, rows.filter (fun x => x.iso_a2 == k) = [r] := by
  induction rows with
  | nil => cases hk
  | cons r0 rest ih =>
      rw [List.map_cons, List.nodup_cons] at hnd
      rcases List.mem_cons.mp hk with heq | hmem
      · refine ⟨r0, ?_⟩
        rw [List.filter_cons_of_pos (by simp [heq]), List.filter_eq_nil_iff.mpr ?_]
        intro x hx hbeq
        apply hnd.1
        rw [← heq, ← eq_of_beq hbeq]
        exact List.mem_map_of_mem _ hx
      · have hne : (r0.iso_a2 == k) = false := by
          rw [Bool.eq_false_iff]
          intro hbeq
          exact hnd.1 (eq_of_beq hbeq ▸ hmem)
        rw [List.filter_cons_of_neg (by simp [hne])]
        exact ih hnd.2 hmem

lemma dedupByIso_group_spec (rows : List Record) {k : Option String}
    (hk : k ∈ rows.map Record.iso_a2) :
    ∃ r l1 l2,
      rows.filter (fun x => x.iso_a2 == k) = l1 ++ r :: l2 ∧
        r ∈ dedupByIso rows ∧ r.iso_a2 = k ∧
        (∀ x ∈ l1, nonNullCountNumeric x < nonNullCountNumeric r) ∧
        (∀ x ∈ rows.filter (fun x => x.iso_a2 == k),
          nonNullCountNumeric x ≤ nonNullCountNumeric r) ∧
        (dedupByIso rows).countP (fun x => x.iso_a2 == k) = 1 := by
  unfold dedupByIso
  split_ifs with hd
  · have hkd : k ∈ (rows.map Record.iso_a2).dedup := List.mem_dedup.mpr hk
    have hne := groupOf_ne_nil hk
    rcases hsome : chooseRowWithMoreNonNulls (rows.filter fun x => x.iso_a2 == k) with _ | r
    · have := chooseRow_isSome hne
      rw [hsome] at this
      cases this
    · obtain ⟨l1, l2, hsplit, hstrict, hmax⟩ := chooseRow_spec hsome
      refine ⟨r, l1, l2, hsplit, List.mem_filterMap.mpr ⟨k, hkd, hsome⟩,
        chooseRow_key hsome, hstrict, hmax, ?_⟩
      have hmapkeys := dedup_keys_map rows ((rows.map Record.iso_a2).dedup)
        (fun k2 hk2 => List.mem_dedup.mp hk2)
      have hcnt : ((((rows.map Record.iso_a2).dedup).filterMap
            (fun k2 => chooseRowWithMoreNonNulls
              (rows.filter (fun x => x.iso_a2 == k2)))).map Record.iso_a2).countP
            (fun i => i == k) =
          (((rows.map Record.iso_a2).dedup).filterMap
            (fun k2 => chooseRowWithMoreNonNulls
              (rows.filter (fun x => x.iso_a2 == k2)))).countP
            (fun x => x.iso_a2 == k) := List.countP_map _ _ _
      rw [← hcnt, hmapkeys]
      exact countP_beq_eq_one_of_nodup_mem (List.nodup_dedup _) hkd
  · have hnd := (hasDupIso_false_iff _).mp (by simpa using hd)
    obtain ⟨r, hsingle⟩ := filter_key_singleton hnd hk
    have hrmem : r ∈ rows.filter (fun x => x.iso_a2 == k) := by
      rw [hsingle]
      exact List.mem_cons_self _ _
    refine ⟨r, [], [], by rw [hsingle, List.nil_append], (List.mem_filter.mp hrmem).1,
      eq_of_beq (List.mem_filter.mp hrmem).2, (by intro x hx; cases hx), ?_, ?_⟩
    · intro x hx
      rw [hsingle] at hx
      rcases List.mem_cons.mp hx with rfl | hx2
      · exact le_refl _
      · cases hx2
    · rw [List.countP_eq_length_filter, hsingle]
      rfl

lemma isNonpositive_iff (v : Option ℚ) : isNonpositive v = true ↔ NonposCell v := by
  rcases v with _ | q
  · simp [isNonpositive, NonposCell]
  · simp [isNonpositive, NonposCell]

lemma nonpositiveBad_iff (r : Record) : nonpositiveBad r = true ↔ HardDrop r := by
  unfold nonpositiveBad HardDrop
  rw [Bool.or_eq_true, Bool.or_eq_true, isNonpositive_iff, isNonpositive_iff,
    isNonpositive_iff]
  tauto

lemma noneOrPos_not_nonpos {v : Option ℚ} (h : NoneOrPos v) : ¬NonposCell v := by
  rintro ⟨q, hq, hle⟩
  rcases h with rfl | ⟨p, hp, hpos⟩
  · cases hq
  · rw [hp] at hq
    injection hq with hq
    rw [← hq] at hle
    exact absurd hle (not_le.mpr hpos)

lemma countP_not_add (l : List Record) (p : Record → Bool) :
    l.countP p + l.countP (fun a => !p a) = l.length := by
  induction l with
  | nil => rfl
  | cons x xs ih =>
      by_cases hx : p x = true
      · rw [List.countP_cons_of_pos _ _ hx, List.countP_cons_of_neg _ _ (by simp [hx]),
          List.length_cons]
        omega
      · rw [List.countP_cons_of_neg _ _ hx, List.countP_cons_of_pos _ _ (by simp at hx; simp [hx]),
          List.length_cons]
        omega

lemma filter_not_length (l : List Record) (p : Record → Bool) :
    l.length - (l.filter (fun a => !p a)).length = l.countP p := by
  have h1 : (l.filter (fun a => !p a)).length = l.countP (fun a => !p a) :=
    (List.countP_eq_length_filter _ _).symm
  have h2 := countP_not_add l p
  omega

lemma filter_pos_length (l : List Record) (q : Record → Bool) :
    l.length - (l.filter q).length = l.countP (fun a => !q a) := by
  have h1 : (l.filter q).length = l.countP q := (List.countP_eq_length_filter _ _).symm
  have h2 := countP_not_add l q
  omega

lemma addPopDensity_fields (r : Record) :
    (addPopDensity r).iso_a2 = r.iso_a2 ∧ (addPopDensity r).name_long = r.name_long ∧
      (addPopDensity r).area_km2 = r.area_km2 ∧ (addPopDensity r).pop = r.pop ∧
      (addPopDensity r).lifeExp = r.lifeExp ∧
      (addPopDensity r).gdpPercap = r.gdpPercap := by
  exact ⟨rfl, rfl, rfl, rfl, rfl, rfl⟩

/-- C1, amended: every output record has non-null iso_a2 and name_long, the
iso_a2 values are pairwise distinct, area_km2 and pop are non-null positive,
and gdpPercap is positive or null — null occurring only in the documented
edge case where the column had no non-null value at the imputation stage
(spec section 7). -/
theorem C1_output_invariants (df : List Record) :
    (∀ r ∈ (cleanWorldData df).1,
      r.iso_a2.isSome ∧ r.name_long.isSome ∧ PosCell r.area_km2 ∧ PosCell r.pop ∧
        (r.gdpPercap = none ∨ PosCell r.gdpPercap)) ∧
      ((cleanWorldData df).1.map Record.iso_a2).Nodup := by
  constructor
  · intro r hr
    rcases List.mem_map.mp hr with ⟨r0, hr0, rfl⟩
    obtain ⟨hiso, hname, harea, hpop, hgdp⟩ := tableE_good r0 (dedupByIso_mem hr0)
    obtain ⟨f1, f2, f3, f4, f5, f6⟩ := addPopDensity_fields r0
    refine ⟨?_, ?_, ?_, ?_, ?_⟩
    · rw [f1]; exact hiso
    · rw [f2]; exact hname
    · rw [f3]; exact harea
    · rw [f4]; exact hpop
    · rw [f6]; exact hgdp
  · have hmap : (cleanWorldData df).1.map Record.iso_a2 = (tableF df).map Record.iso_a2 := by
      rw [show (cleanWorldData df).1 = (tableF df).map addPopDensity from rfl, List.map_map]
      rfl
    rw [hmap]
    exact dedupByIso_iso_nodup _

/-- C1 fails as literally stated: with a single row whose gdpPercap column
is entirely null, the output record survives with a null gdpPercap, which is
not positive. -/
theorem C1_counterexample :
    ¬(∀ r ∈ (cleanWorldData [rowGdpAllNull]).1, PosCell r.gdpPercap) := by
  intro h
  have hmap : (cleanWorldData [rowGdpAllNull]).1.map Record.gdpPercap = [none] := by decide
  rcases hout : (cleanWorldData [rowGdpAllNull]).1 with _ | ⟨r, rest⟩
  · rw [hout] at hmap
    cases hmap
  · rw [hout] at hmap h
    simp only [List.map_cons] at hmap
    have hhead : r.gdpPercap = none := (List.cons.injEq _ _ _ _).mp hmap |>.1
    rcases h r (List.mem_cons_self _ _) with ⟨q, hq, -⟩
    rw [hhead] at hq
    cases hq

/-- Witness: the invariants of C1_output_invariants evaluated on a concrete
one-row table. -/
theorem C1_output_invariants_witness :
    (addPopDensity rowWitnessFull).iso_a2.isSome ∧
      PosCell (addPopDensity rowWitnessFull).area_km2 := by
  have hmem : addPopDensity rowWitnessFull ∈ (cleanWorldData [rowWitnessFull]).1 := by
    rw [show (cleanWorldData [rowWitnessFull]).1 = [addPopDensity rowWitnessFull] from rfl]
    exact List.mem_cons_self _ _
  have h := (C1_output_invariants [rowWitnessFull]).1 (addPopDensity rowWitnessFull) hmem
  exact ⟨h.1, h.2.2.1⟩

/-- C5: at the range-filtering stage a record is removed iff pop <= 0 or
area_km2 <= 0 or gdpPercap <= 0 with nulls never triggering (the NonposCell
form demands an actual non-null value); every removal is counted in
dropped_invalid_nonpositive; no record reaching Step E satisfies the drop
condition, and the critical-missing counter counts exactly the Step E
null-area-or-pop records, so the two counters draw from disjoint rows. -/
theorem C5_range_filter (df : List Record) :
    (∀ r, r ∈ tableC df ↔ r ∈ tableA df ∧ ¬HardDrop r) ∧
      (cleanWorldData df).2.dropped_invalid_nonpositive = (tableA df).countP nonpositiveBad ∧
      (∀ r ∈ tableD df, ¬HardDrop r) ∧
      (cleanWorldData df).2.dropped_missing_area_or_pop =
        (tableD df).countP (fun r => !(r.area_km2.isSome && r.pop.isSome)) := by
  refine ⟨?_, ?_, ?_, ?_⟩
  · intro r
    constructor
    · intro h
      rcases List.mem_filter.mp h with ⟨h1, h2⟩
      refine ⟨h1, ?_⟩
      rw [← nonpositiveBad_iff]
      simpa using h2
    · rintro ⟨h1, h2⟩
      refine List.mem_filter.mpr ⟨h1, ?_⟩
      rw [← nonpositiveBad_iff] at h2
      simpa using h2
  · show (tableA df).length - (tableC df).length = _
    exact filter_not_length (tableA df) nonpositiveBad
  · intro r hr
    obtain ⟨-, -, harea, hpop, hgdp⟩ := tableD_good r hr
    rintro (hbad | hbad | hbad)
    · exact noneOrPos_not_nonpos hpop hbad
    · exact noneOrPos_not_nonpos harea hbad
    · exact noneOrPos_not_nonpos hgdp hbad
  · show (tableD df).length - (tableE df).length = _
    exact filter_pos_length (tableD df) _

/-- Witness: C5_range_filter instantiated on a one-row table with positive
values; the row passes the filter and is counted in neither counter. -/
theorem C5_range_filter_witness :
    rowWitnessFull ∈ tableA [rowWitnessFull] ∧
      (cleanWorldData [rowWitnessFull]).2.dropped_invalid_nonpositive =
        (tableA [rowWitnessFull]).countP nonpositiveBad := by
  refine ⟨(((C5_range_filter [rowWitnessFull]).1 rowWitnessFull).mp (by decide)).1, ?_⟩
  exact (C5_range_filter [rowWitnessFull]).2.1

/-- C6: an out-of-range lifeExp — exactly a non-null value outside the open
interval (0, 120) — never removes the record: the soft-null step keeps every
row (it is a map), resets exactly the out-of-range values to null, the hard
drop of Step C is blind to lifeExp, and when any such record exists the
report counts them all under lifeExp_out_of_range_set_nan. -/
theorem C6_lifeExp_soft_null (df : List Record) :
    (∀ r, lifeExpOutOfRange r = true ↔ ∃ q, r.lifeExp = some q ∧ (q ≤ 0 ∨ 120 ≤ q)) ∧
      (tableCsoft df).length = (tableC df).length ∧
      (∀ r ∈ tableC df, softNullLifeExp r ∈ tableCsoft df) ∧
      (∀ r, lifeExpOutOfRange r = true → (softNullLifeExp r).lifeExp = none) ∧
      (∀ r, lifeExpOutOfRange r = false → softNullLifeExp r = r) ∧
      (∀ r v, nonpositiveBad { r with lifeExp := v } = nonpositiveBad r) ∧
      ((tableC df).countP lifeExpOutOfRange ≠ 0 →
        (cleanWorldData df).2.lifeExp_out_of_range_set_nan =
          some ((tableC df).countP lifeExpOutOfRange)) := by
  refine ⟨?_, List.length_map _ _, ?_, ?_, ?_, ?_, ?_⟩
  · intro r
    rcases h : r.lifeExp with _ | q
    · simp [lifeExpOutOfRange, h]
    · simp [lifeExpOutOfRange, h]
  · intro r hr
    exact List.mem_map_of_mem _ hr
  · intro r h
    unfold softNullLifeExp
    rw [if_pos h]
  · intro r h
    unfold softNullLifeExp
    rw [if_neg (by simp [h])]
  · intro r v
    rfl
  · intro h
    show (if (tableC df).countP lifeExpOutOfRange = 0 then none
      else some ((tableC df).countP lifeExpOutOfRange)) = _
    rw [if_neg h]

/-- Witness: C6_lifeExp_soft_null on a table whose single row has
lifeExp = 140: the row is nulled, kept and counted. -/
theorem C6_lifeExp_soft_null_witness :
    (softNullLifeExp rowOutOfRange).lifeExp = none ∧
      (cleanWorldData [rowOutOfRange]).2.lifeExp_out_of_range_set_nan =
        some ((tableC [rowOutOfRange]).countP lifeExpOutOfRange) := by
  refine ⟨(C6_lifeExp_soft_null []).2.2.2.1 rowOutOfRange (by decide), ?_⟩
  exact (C6_lifeExp_soft_null [rowOutOfRange]).2.2.2.2.2.2 (by decide)

/-- C7: every output record carries pop_density equal to the exact quotient
pop / area_km2 of its own non-null positive pop and area_km2 — in
particular it is never null, and exact equality is within any tolerance. -/
theorem C7_pop_density (df : List Record) :
    ∀ r ∈ (cleanWorldData df).1,
      ∃ p a, r.pop = some p ∧ r.area_km2 = some a ∧ 0 < p ∧ 0 < a ∧
        r.pop_density = some (p / a) := by
  intro r hr
  rcases List.mem_map.mp hr with ⟨r0, hr0, rfl⟩
  obtain ⟨-, -, ⟨a, ha, hapos⟩, ⟨p, hp, hppos⟩, -⟩ := tableE_good r0 (dedupByIso_mem hr0)
  refine ⟨p, a, ?_, ?_, hppos, hapos, ?_⟩
  · rw [(addPopDensity_fields r0).2.2.2.1]
    exact hp
  · rw [(addPopDensity_fields r0).2.2.1]
    exact ha
  · show (addPopDensity r0).pop_density = some (p / a)
    unfold addPopDensity
    rw [hp, ha]

/-- Witness: C7_pop_density on a concrete one-row table. -/
theorem C7_pop_density_witness :
    ∃ p a, (addPopDensity rowWitnessFull).pop = some p ∧
      (addPopDensity rowWitnessFull).area_km2 = some a ∧ 0 < p ∧ 0 < a ∧
      (addPopDensity rowWitnessFull).pop_density = some (p / a) := by
  apply C7_pop_density [rowWitnessFull]
  rw [show (cleanWorldData [rowWitnessFull]).1 = [addPopDensity rowWitnessFull] from rfl]
  exact List.mem_cons_self _ _

lemma tableD_lifeExp_isSome {df : List Record}
    (h : ∃ r ∈ tableCsoft df, r.lifeExp.isSome) :
    ∀ r ∈ tableD df, r.lifeExp.isSome := by
  have h1 : ∀ x ∈ tableDlife df, (getCol ImpCol.lifeExp x).isSome := by
    apply imputeRows_total
    rcases h with ⟨r, hr, hs⟩
    exact ⟨r, hr, hs⟩
  intro r hr
  obtain ⟨x, hx, hsh⟩ := imputeRows_shape r hr
  have hpres := (shapeOf_fields hsh).2.2.2.2.2.2.2 ImpCol.lifeExp (by intro hc; cases hc)
  have := h1 x hx
  show (getCol ImpCol.lifeExp r).isSome
  rw [hpres]
  exact this

lemma tableD_gdp_isSome {df : List Record}
    (h : ∃ r ∈ tableDlife df, r.gdpPercap.isSome) :
    ∀ r ∈ tableD df, r.gdpPercap.isSome := by
  apply imputeRows_total
  rcases h with ⟨r, hr, hs⟩
  exact ⟨r, hr, hs⟩

/-- C2, amended: for each of lifeExp and gdpPercap, if at least one non-null
value exists in that column at the start of that column's imputation pass
(after identifier drop, coercion and range handling), then no output record
is null in that column — the global-median tier resolves everything still
null. -/
theorem C2_imputation_totality (df : List Record) :
    ((∃ r ∈ tableCsoft df, r.lifeExp.isSome) →
      ∀ r ∈ (cleanWorldData df).1, r.lifeExp.isSome) ∧
      ((∃ r ∈ tableDlife df, r.gdpPercap.isSome) →
        ∀ r ∈ (cleanWorldData df).1, r.gdpPercap.isSome) := by
  constructor
  · intro h r hr
    rcases List.mem_map.mp hr with ⟨r0, hr0, rfl⟩
    rw [(addPopDensity_fields r0).2.2.2.2.1]
    exact tableD_lifeExp_isSome h r0 (mem_tableE (dedupByIso_mem hr0)).1
  · intro h r hr
    rcases List.mem_map.mp hr with ⟨r0, hr0, rfl⟩
    rw [(addPopDensity_fields r0).2.2.2.2.2]
    exact tableD_gdp_isSome h r0 (mem_tableE (dedupByIso_mem hr0)).1

/-- C2 fails as literally stated for the input table: the only non-null
lifeExp sits on a row dropped at Step A for its missing iso_a2, after which
nothing can impute the surviving row's lifeExp, which reaches the output
null. -/
theorem C2_counterexample :
    ¬((∃ r ∈ ([rowLifeOnDropped, rowLifeNullKept] : List Record), r.lifeExp.isSome) →
      ∀ r ∈ (cleanWorldData [rowLifeOnDropped, rowLifeNullKept]).1, r.lifeExp.isSome) := by
  intro h
  have hall := h ⟨rowLifeOnDropped, by decide, by decide⟩
  have hmap : (cleanWorldData [rowLifeOnDropped, rowLifeNullKept]).1.map Record.lifeExp =
      [none] := by decide
  rcases hout : (cleanWorldData [rowLifeOnDropped, rowLifeNullKept]).1 with _ | ⟨r, rest⟩
  · rw [hout] at hmap
    cases hmap
  · rw [hout] at hmap hall
    simp only [List.map_cons] at hmap
    have hhead : r.lifeExp = none := (List.cons.injEq _ _ _ _).mp hmap |>.1
    have := hall r (List.mem_cons_self _ _)
    rw [hhead] at this
    cases this

/-- Witness: C2_imputation_totality on a concrete one-row table whose
lifeExp and gdpPercap are present at the imputation stage. -/
theorem C2_imputation_totality_witness :
    (addPopDensity rowWitnessFull).lifeExp.isSome ∧
      (addPopDensity rowWitnessFull).gdpPercap.isSome := by
  have hmem : addPopDensity rowWitnessFull ∈ (cleanWorldData [rowWitnessFull]).1 := by
    rw [show (cleanWorldData [rowWitnessFull]).1 = [addPopDensity rowWitnessFull] from rfl]
    exact List.mem_cons_self _ _
  constructor
  · exact (C2_imputation_totality [rowWitnessFull]).1
      ⟨softNullLifeExp rowWitnessFull, by decide, by decide⟩ _ hmem
  · exact (C2_imputation_totality [rowWitnessFull]).2
      ⟨softNullLifeExp rowWitnessFull, by decide, by decide⟩ _ hmem

/-- C3, amended: at the deduplication stage every iso_a2 group contributes
exactly one output record — a group member of maximal non-null count among
area_km2, pop, lifeExp, gdpPercap, the first such member in input order
(everything before it in the group counts strictly fewer).  The particular
two-record consequence survives only for a null in area_km2 or pop (the
record is dropped at Step E, illustrated concretely here): a null in
lifeExp or gdpPercap is imputed before deduplication, so the tie-break
keeps the earlier record, not necessarily the fully-populated one. -/
theorem C3_dedup_keeps_most_complete (df : List Record) :
    (∀ k ∈ (tableE df).map Record.iso_a2,
      ∃ r l1 l2,
        (tableE df).filter (fun x => x.iso_a2 == k) = l1 ++ r :: l2 ∧
          r ∈ tableF df ∧ r.iso_a2 = k ∧
          (∀ x ∈ l1, nonNullCountNumeric x < nonNullCountNumeric r) ∧
          (∀ x ∈ (tableE df).filter (fun x => x.iso_a2 == k),
            nonNullCountNumeric x ≤ nonNullCountNumeric r) ∧
          (tableF df).countP (fun x => x.iso_a2 == k) = 1) ∧
      (cleanWorldData [rowPopNullFirst, rowPopFull]).1.map Record.name_long =
        [some "Full"] := by
  constructor
  · intro k hk
    exact dedupByIso_group_spec (tableE df) hk
  · decide

/-- C3 fails as literally stated: with the lifeExp-null duplicate first in
input order, imputation fills its lifeExp from the duplicate before
deduplication, the non-null counts tie at four, and idxmax keeps the first
record — the fully-populated record named Second is not retained. -/
theorem C3_counterexample :
    rowDupFirst.lifeExp = none ∧ nonNullCountNumeric rowDupSecond = 4 ∧
      ¬∃ r ∈ (cleanWorldData [rowDupFirst, rowDupSecond]).1,
        r.name_long = some "Second" := by
  refine ⟨rfl, by decide, ?_⟩
  intro h
  have hmap : (cleanWorldData [rowDupFirst, rowDupSecond]).1.map Record.name_long =
      [some "First"] := by decide
  rcases h with ⟨r, hr, hname⟩
  have : r.name_long ∈ (cleanWorldData [rowDupFirst, rowDupSecond]).1.map Record.name_long :=
    List.mem_map_of_mem _ hr
  rw [hmap, hname] at this
  rcases List.mem_cons.mp this with heq | hnil
  · exact absurd heq (by decide)
  · cases hnil

/-- Witness: C3_dedup_keeps_most_complete instantiated at the key AA of a
concrete duplicated table. -/
theorem C3_dedup_keeps_most_complete_witness :
    ∃ r l1 l2,
      (tableE [rowDupFirst, rowDupSecond]).filter (fun x => x.iso_a2 == some "AA") =
          l1 ++ r :: l2 ∧
        r ∈ tableF [rowDupFirst, rowDupSecond] ∧ r.iso_a2 = some "AA" ∧
        (∀ x ∈ l1, nonNullCountNumeric x < nonNullCountNumeric r) ∧
        (∀ x ∈ (tableE [rowDupFirst, rowDupSecond]).filter (fun x => x.iso_a2 == some "AA"),
          nonNullCountNumeric x ≤ nonNullCountNumeric r) ∧
        (tableF [rowDupFirst, rowDupSecond]).countP (fun x => x.iso_a2 == some "AA") = 1 :=
  (C3_dedup_keeps_most_complete [rowDupFirst, rowDupSecond]).1 (some "AA") (by decide)

/-- C4 evaluated at the failing input: the subregion group "S" holds no
non-null lifeExp, yet its key sits in the groupby median index, so the
subregion tier claims the record (by_subregion = 1) while filling it with
the group's null median — the value is still missing after the tier and is
resolved and counted again at the continent tier (by_continent = 1).  One
missing value, two tier counts: the per-tier counts do not equal the values
actually resolved per tier, and the subregion tier was applied where the
subregion median does not exist. -/
theorem C4_tier_counts_eval :
    (imputeGroupwiseMedian [rowSubAllNull, rowSubDonor] ImpCol.lifeExp).2 =
        ⟨1, 1, 0⟩ ∧
      ([rowSubAllNull, rowSubDonor].countP
        (fun r => (getCol ImpCol.lifeExp r).isNone)) = 1 ∧
      getCol ImpCol.lifeExp
        (applySubregionTier [rowSubAllNull, rowSubDonor] ImpCol.lifeExp rowSubAllNull) =
        none ∧
      subregionMedian [rowSubAllNull, rowSubDonor] ImpCol.lifeExp "S" = none ∧
      subregionTierHits [rowSubAllNull, rowSubDonor] ImpCol.lifeExp rowSubAllNull = true ∧
      (imputeGroupwiseMedian [rowSubAllNull, rowSubDonor] ImpCol.lifeExp).1.map
        (getCol ImpCol.lifeExp) = [some 50, some 50] := by
  decide

/-- C8 evaluated at the failing inputs: the source replaces a non-breaking
space by an ordinary space and only trims the ends, so an interior
separator survives and pd.to_numeric nulls the cell, where the claim (and
the function's own doc comment, which offers " 5 678") promises the
separator removed and the number parsed.  The comma path, the nan path and
the numeric passthrough behave as claimed. -/
theorem C8_coercion_divergence :
    toNumericSafeText (String.mk ['1', nbspChar, '2', '3', '4']) = none ∧
      toNumericClaimText (String.mk ['1', nbspChar, '2', '3', '4']) = some 1234 ∧
      toNumericSafeText " 5 678" = none ∧
      toNumericSafeText "1,234 " = some 1234 ∧
      toNumericSafeText "" = none ∧
      toNumericSafeText "nan" = none ∧
      toNumericSafeText "abc" = none ∧
      (∀ vals, toNumericSafe (RawColumn.numeric vals) = vals) := by
  refine ⟨?_, ?_, ?_, ?_, by decide, by decide, by decide, fun vals => rfl⟩
  · rw [toNumericSafeText]
    rw [show cleanedCell (String.mk ['1', nbspChar, '2', '3', '4']) =
      ['1', ' ', '2', '3', '4'] from by decide]
    rw [if_neg (by decide), pdToNumericCell, if_neg (by decide)]
    rw [show parseDecimalSyntax ['1', ' ', '2', '3', '4'] = none from by decide]
    rfl
  · rw [toNumericClaimText]
    rw [if_neg (by decide)]
    rw [show stripChars ((String.mk ['1', nbspChar, '2', '3', '4']).toList.filter
      (fun c => c ≠ ',' && c ≠ nbspChar)) = ['1', '2', '3', '4'] from by decide]
    rw [pdToNumericCell, if_neg (by decide)]
    rw [show parseDecimalSyntax ['1', '2', '3', '4'] =
      some ⟨false, ['1', '2', '3', '4'], [], 0⟩ from by decide]
    norm_num [evalParsed, show digitsToNat ['1', '2', '3', '4'] = 1234 from by decide,
      show digitsToNat [] = 0 from rfl]
  · rw [toNumericSafeText]
    rw [show cleanedCell " 5 678" = ['5', ' ', '6', '7', '8'] from by decide]
    rw [if_neg (by decide), pdToNumericCell, if_neg (by decide)]
    rw [show parseDecimalSyntax ['5', ' ', '6', '7', '8'] = none from by decide]
    rfl
  · rw [toNumericSafeText]
    rw [show cleanedCell "1,234 " = ['1', '2', '3', '4'] from by decide]
    rw [if_neg (by decide), pdToNumericCell, if_neg (by decide)]
    rw [show parseDecimalSyntax ['1', '2', '3', '4'] =
      some ⟨false, ['1', '2', '3', '4'], [], 0⟩ from by decide]
    norm_num [evalParsed, show digitsToNat ['1', '2', '3', '4'] = 1234 from by decide,
      show digitsToNat [] = 0 from rfl]

lemma imputeKeyError_none_of_flags {cols : ColumnSet} {rows : List Record} {c : ImpCol}
    (hs : cols.subregion = true) (hc : cols.continent = true) :
    imputeKeyError cols rows c = none := by
  unfold imputeKeyError
  split_ifs with h1 h2 h3 h4 <;> simp_all

lemma imputeKeyError_some {cols : ColumnSet} {rows : List Record} {c : ImpCol}
    {errs : List String} (h : imputeKeyError cols rows c = some errs) :
    (errs = ["subregion"] ∧ cols.subregion = false) ∨
      (errs = ["continent"] ∧ cols.continent = false) := by
  unfold imputeKeyError at h
  by_cases h1 : (rows.map (getCol c)).all Option.isSome
  · rw [if_pos h1] at h
    cases h
  · rw [if_neg h1] at h
    by_cases h2 : cols.subregion = false
    · rw [if_pos h2] at h
      exact Or.inl ⟨(Option.some_inj.mp h).symm, h2⟩
    · rw [if_neg h2] at h
      by_cases h3 : ((rows.map (applySubregionTier rows c)).map (getCol c)).all Option.isSome
      · rw [if_pos h3] at h
        cases h
      · rw [if_neg h3] at h
        by_cases h4 : cols.continent = false
        · rw [if_pos h4] at h
          exact Or.inr ⟨(Option.some_inj.mp h).symm, h4⟩
        · rw [if_neg h4] at h
          cases h

lemma missingIdentifierCols_sub {cols : ColumnSet} :
    ∀ n ∈ missingIdentifierCols cols, n ∈ absentCols cols := by
  intro n hn
  unfold missingIdentifierCols at hn
  unfold absentCols
  rcases List.mem_append.mp hn with h | h
  · rcases hi : cols.iso_a2
    · simp only [hi, Bool.false_eq_true, if_false, List.mem_singleton] at h
      subst h
      simp [hi]
    · simp [hi] at h
  · rcases hnm : cols.name_long
    · simp only [hnm, Bool.false_eq_true, if_false, List.mem_singleton] at h
      subst h
      simp [hnm]
    · simp [hnm] at h

lemma missingIdentifierCols_nil {cols : ColumnSet}
    (h : missingIdentifierCols cols = []) : cols.iso_a2 = true ∧ cols.name_long = true := by
  unfold missingIdentifierCols at h
  rcases hi : cols.iso_a2 <;> rcases hnm : cols.name_long <;> rw [hi, hnm] at h
  · cases h
  · cases h
  · cases h
  · exact ⟨rfl, rfl⟩

/-- C9, amended: clean_world_data never raises for malformed cell values —
with the full schema it returns the cleaned table and report for every
table; any raised error names only absent required columns, and the list is
never empty; an absent identifier or numeric column always surfaces as a
KeyError, but an absent grouping column surfaces only when imputation
actually reaches that groupby (some value of the column being imputed is
still missing at that tier), otherwise the pipeline completes. -/
theorem C9_schema_errors (cols : ColumnSet) (df : List Record) :
    (cols.complete = true → cleanWorldDataChecked cols df = Except.ok (cleanWorldData df)) ∧
      (∀ errs, cleanWorldDataChecked cols df = Except.error errs →
        errs ≠ [] ∧ ∀ n ∈ errs, n ∈ absentCols cols) ∧
      ((cols.iso_a2 && cols.name_long && cols.area_km2 && cols.pop && cols.lifeExp &&
          cols.gdpPercap) = false →
        ∃ errs, cleanWorldDataChecked cols df = Except.error errs ∧ errs ≠ []) := by
  refine ⟨?_, ?_, ?_⟩
  · intro hc
    unfold ColumnSet.complete at hc
    simp only [Bool.and_eq_true] at hc
    obtain ⟨⟨⟨⟨⟨⟨⟨hiso, hname⟩, harea⟩, hpop⟩, hlife⟩, hgdp⟩, hcont⟩, hsub⟩ := hc
    unfold cleanWorldDataChecked
    rw [if_neg (by simp [missingIdentifierCols, hiso, hname]),
      if_neg (by simp [hpop]), if_neg (by simp [harea]), if_neg (by simp [hgdp]),
      if_neg (by simp [hlife]), imputeKeyError_none_of_flags hsub hcont,
      imputeKeyError_none_of_flags hsub hcont]
  · intro errs herr
    unfold cleanWorldDataChecked at herr
    split_ifs at herr with h1 h2 h3 h4 h5
    · injection herr with herr
      subst herr
      exact ⟨h1, missingIdentifierCols_sub⟩
    · injection herr with herr
      subst herr
      exact ⟨by simp, by simp [absentCols, h2]⟩
    · injection herr with herr
      subst herr
      exact ⟨by simp, by simp [absentCols, h3]⟩
    · injection herr with herr
      subst herr
      exact ⟨by simp, by simp [absentCols, h4]⟩
    · injection herr with herr
      subst herr
      exact ⟨by simp, by simp [absentCols, h5]⟩
    · rcases hik : imputeKeyError cols (tableCsoft df) ImpCol.lifeExp with _ | errs1
      · rw [hik] at herr
        rcases hik2 : imputeKeyError cols (tableDlife df) ImpCol.gdpPercap with _ | errs2
        · rw [hik2] at herr
          cases herr
        · rw [hik2] at herr
          injection herr with herr
          subst herr
          rcases imputeKeyError_some hik2 with ⟨rfl, hflag⟩ | ⟨rfl, hflag⟩
          · exact ⟨by simp, by simp [absentCols, hflag]⟩
          · exact ⟨by simp, by simp [absentCols, hflag]⟩
      · rw [hik] at herr
        injection herr with herr
        subst herr
        rcases imputeKeyError_some hik with ⟨rfl, hflag⟩ | ⟨rfl, hflag⟩
        · exact ⟨by simp, by simp [absentCols, hflag]⟩
        · exact ⟨by simp, by simp [absentCols, hflag]⟩
  · intro h6
    unfold cleanWorldDataChecked
    split_ifs with h1 h2 h3 h4 h5
    · exact ⟨_, rfl, h1⟩
    · exact ⟨_, rfl, by simp⟩
    · exact ⟨_, rfl, by simp⟩
    · exact ⟨_, rfl, by simp⟩
    · exact ⟨_, rfl, by simp⟩
    · exfalso
      obtain ⟨hiso, hname⟩ := missingIdentifierCols_nil (not_ne_iff.mp h1)
      simp only [Bool.not_eq_false] at h2 h3 h4 h5
      rw [hiso, hname, h3, h2, h5, h4] at h6
      cases h6

/-- C9 fails as literally stated: with the subregion column absent but no
value missing at the imputation stage, the pipeline never touches
groupby("subregion") and completes without any failure, although a required
(grouping) column is entirely absent from the schema. -/
theorem C9_counterexample :
    ColumnSet.complete colsNoSubregion = false ∧
      cleanWorldDataChecked colsNoSubregion [rowWitnessFull] =
        Except.ok (cleanWorldData [rowWitnessFull]) := by
  constructor
  · rfl
  · unfold cleanWorldDataChecked
    rw [if_neg (by decide), if_neg (by decide), if_neg (by decide), if_neg (by decide),
      if_neg (by decide)]
    rw [show imputeKeyError colsNoSubregion (tableCsoft [rowWitnessFull]) ImpCol.lifeExp =
      none from by decide]
    rw [show imputeKeyError colsNoSubregion (tableDlife [rowWitnessFull]) ImpCol.gdpPercap =
      none from by decide]

/-- Witness: C9_schema_errors applied at the full schema and at a schema
missing the pop column. -/
theorem C9_schema_errors_witness :
    cleanWorldDataChecked colsAll [rowWitnessFull] =
        Except.ok (cleanWorldData [rowWitnessFull]) ∧
      ∃ errs, cleanWorldDataChecked ⟨true, true, true, false, true, true, true, true⟩
        [rowWitnessFull] = Except.error errs ∧ errs ≠ [] := by
  constructor
  · exact (C9_schema_errors colsAll [rowWitnessFull]).1 (by decide)
  · exact (C9_schema_errors ⟨true, true, true, false, true, true, true, true⟩
      [rowWitnessFull]).2.2 (by decide)

lemma isNone_false_of_isSome {v : Option ℚ} (h : v.isSome) : v.isNone = false := by
  rcases v with _ | q
  · cases h
  · rfl

lemma applySubregionTier_eq (rows : List Record) (c : ImpCol) (r : Record) :
    applySubregionTier rows c r = setCol c r (valueAfterSubTier rows c r) := by
  unfold applySubregionTier valueAfterSubTier subregionTierHits
  rcases h : r.subregion with _ | s
  · simp only [h, Bool.and_false]
    rw [if_neg (by simp), setCol_self]
  · simp only [h]
    by_cases hc : ((getCol c r).isNone && rows.any fun r2 => r2.subregion == some s) = true
    · rw [if_pos hc, if_pos hc]
    · rw [if_neg hc, if_neg hc, setCol_self]

lemma applyContinentTier_setCol (rows : List Record) (c : ImpCol) (r : Record)
    (v : Option ℚ) :
    applyContinentTier rows c (setCol c r v) =
      setCol c r
        (if v.isNone &&
            (match r.continent with
             | some s => rows.any (fun r2 => r2.continent == some s)
             | none => false) then
          match r.continent with
          | some s => continentMedian rows c s
          | none => none
        else v) := by
  unfold applyContinentTier
  rcases h : r.continent with _ | s
  · have hc : (setCol c r v).continent = none := by rw [setCol_continent, h]
    simp only [hc, h, Bool.and_false]
    rw [if_neg (by simp)]
  · have hc : (setCol c r v).continent = some s := by rw [setCol_continent, h]
    simp only [hc, h, getCol_setCol]
    by_cases hcond : (v.isNone && rows.any fun r2 => r2.continent == some s) = true
    · rw [if_pos hcond, if_pos hcond, setCol_setCol]
    · rw [if_neg hcond, if_neg hcond]

lemma applyGlobalTier_setCol (rows : List Record) (c : ImpCol) (r : Record) (v : Option ℚ) :
    applyGlobalTier rows c (setCol c r v) =
      setCol c r (if v.isNone then globalMedian rows c else v) := by
  unfold applyGlobalTier
  rw [getCol_setCol]
  by_cases hc : v.isNone = true
  · rw [if_pos hc, if_pos hc, setCol_setCol]
  · rw [if_neg hc, if_neg hc]

lemma tiers_compose (rows : List Record) (c : ImpCol) (r : Record) :
    applyGlobalTier rows c (applyContinentTier rows c (applySubregionTier rows c r)) =
      setCol c r (imputedValueFromStart rows c r) := by
  rw [applySubregionTier_eq, applyContinentTier_setCol, applyGlobalTier_setCol]
  rfl

lemma applySub_getCol (rows : List Record) (c : ImpCol) (r : Record) :
    getCol c (applySubregionTier rows c r) = valueAfterSubTier rows c r := by
  rw [applySubregionTier_eq, getCol_setCol]

lemma applyContSub_eq (rows : List Record) (c : ImpCol) (r : Record) :
    applyContinentTier rows c (applySubregionTier rows c r) =
      setCol c r (valueAfterContTier rows c r) := by
  rw [applySubregionTier_eq, applyContinentTier_setCol]
  rfl

lemma applyContSub_getCol (rows : List Record) (c : ImpCol) (r : Record) :
    getCol c (applyContinentTier rows c (applySubregionTier rows c r)) =
      valueAfterContTier rows c r := by
  rw [applyContSub_eq, getCol_setCol]

lemma contHits_applySub (rows : List Record) (c : ImpCol) (r : Record) :
    continentTierHits rows c (applySubregionTier rows c r) =
      contTierHitsFromStart rows c r := by
  unfold continentTierHits contTierHitsFromStart
  rw [applySubregionTier_eq, getCol_setCol, setCol_continent]

lemma valueAfterSub_of_isSome {rows : List Record} {c : ImpCol} {r : Record}
    (h : (getCol c r).isSome) : valueAfterSubTier rows c r = getCol c r := by
  unfold valueAfterSubTier subregionTierHits
  rw [isNone_false_of_isSome h]
  simp

lemma valueAfterCont_of_subSome {rows : List Record} {c : ImpCol} {r : Record}
    (h : (valueAfterSubTier rows c r).isSome) :
    valueAfterContTier rows c r = valueAfterSubTier rows c r := by
  unfold valueAfterContTier contTierHitsFromStart
  rw [isNone_false_of_isSome h]
  simp

lemma imputedValue_of_contSome {rows : List Record} {c : ImpCol} {r : Record}
    (h : (valueAfterContTier rows c r).isSome) :
    imputedValueFromStart rows c r = valueAfterContTier rows c r := by
  unfold imputedValueFromStart
  rw [isNone_false_of_isSome h]
  simp

lemma imputedValue_of_subSome {rows : List Record} {c : ImpCol} {r : Record}
    (h : (valueAfterSubTier rows c r).isSome) :
    imputedValueFromStart rows c r = valueAfterSubTier rows c r := by
  rw [imputedValue_of_contSome (by rw [valueAfterCont_of_subSome h]; exact h),
    valueAfterCont_of_subSome h]

lemma imputedValue_of_isSome {rows : List Record} {c : ImpCol} {r : Record}
    (h : (getCol c r).isSome) : imputedValueFromStart rows c r = getCol c r := by
  rw [imputedValue_of_subSome (by rw [valueAfterSub_of_isSome h]; exact h),
    valueAfterSub_of_isSome h]

/-- C10: within one column's imputation every tier works from the column as
it stood at the start of that column's pass — the function equals the
re-specification that computes the subregion, continent and global medians
up front from the incoming rows and fills each record pointwise from those
start-of-stage medians, so a value filled at the subregion tier never feeds
the continent or global medians, and a value filled at the continent tier
never feeds the global median. -/
theorem C10_medians_from_start (rows : List Record) (c : ImpCol) :
    imputeGroupwiseMedian rows c = imputeFromStartMedians rows c := by
  unfold imputeGroupwiseMedian imputeFromStartMedians
  rw [Prod.mk.injEq]
  constructor
  · -- the filled rows
    simp only [imputeRows]
    by_cases h1 : (rows.map (getCol c)).all Option.isSome
    · rw [if_pos h1]
      have hsome : ∀ r ∈ rows, (getCol c r).isSome := fun r hr =>
        List.all_eq_true.mp h1 _ (List.mem_map_of_mem _ hr)
      rw [show rows.map (fun r => setCol c r (imputedValueFromStart rows c r)) =
          rows.map (fun r => r) from
        List.map_congr_left (fun r hr => by
          rw [imputedValue_of_isSome (hsome r hr), setCol_self])]
      exact (List.map_id' rows).symm
    · rw [if_neg h1]
      by_cases h2 : ((rows.map (applySubregionTier rows c)).map (getCol c)).all Option.isSome
      · rw [if_pos h2]
        have hsub : ∀ r ∈ rows, (valueAfterSubTier rows c r).isSome := by
          intro r hr
          rw [← applySub_getCol]
          exact List.all_eq_true.mp h2 _
            (List.mem_map_of_mem _ (List.mem_map_of_mem _ hr))
        exact List.map_congr_left fun r hr => by
          rw [applySubregionTier_eq, imputedValue_of_subSome (hsub r hr)]
      · rw [if_neg h2]
        by_cases h3 : (((rows.map (applySubregionTier rows c)).map
            (applyContinentTier rows c)).map (getCol c)).all Option.isSome
        · rw [if_pos h3]
          have hcont : ∀ r ∈ rows, (valueAfterContTier rows c r).isSome := by
            intro r hr
            rw [← applyContSub_getCol]
            exact List.all_eq_true.mp h3 _ (List.mem_map_of_mem _
              (List.mem_map_of_mem _ (List.mem_map_of_mem _ hr)))
          rw [List.map_map]
          exact List.map_congr_left fun r hr => by
            show applyContinentTier rows c (applySubregionTier rows c r) = _
            rw [applyContSub_eq, imputedValue_of_contSome (hcont r hr)]
        · rw [if_neg h3, List.map_map, List.map_map]
          exact List.map_congr_left fun r hr => by
            show applyGlobalTier rows c
              (applyContinentTier rows c (applySubregionTier rows c r)) = _
            rw [tiers_compose]
  · -- the counters
    simp only [imputeCounts]
    by_cases h1 : (rows.map (getCol c)).all Option.isSome
    · rw [if_pos h1]
      have hsome : ∀ r ∈ rows, (getCol c r).isSome := fun r hr =>
        List.all_eq_true.mp h1 _ (List.mem_map_of_mem _ hr)
      rw [ImputeCounts.mk.injEq]
      refine ⟨?_, ?_, ?_⟩
      · symm
        rw [List.countP_eq_zero]
        intro r hr
        unfold subregionTierHits
        rw [isNone_false_of_isSome (hsome r hr)]
        simp
      · symm
        rw [List.countP_eq_zero]
        intro r hr
        unfold contTierHitsFromStart
        have hvs : (valueAfterSubTier rows c r).isSome := by
          rw [valueAfterSub_of_isSome (hsome r hr)]
          exact hsome r hr
        rw [isNone_false_of_isSome hvs]
        simp
      · symm
        rw [List.countP_eq_zero]
        intro r hr
        have hvs : (valueAfterSubTier rows c r).isSome := by
          rw [valueAfterSub_of_isSome (hsome r hr)]
          exact hsome r hr
        rw [valueAfterCont_of_subSome hvs, isNone_false_of_isSome hvs]
        simp
    · rw [if_neg h1]
      by_cases h2 : ((rows.map (applySubregionTier rows c)).map (getCol c)).all Option.isSome
      · rw [if_pos h2]
        have hsub : ∀ r ∈ rows, (valueAfterSubTier rows c r).isSome := by
          intro r hr
          rw [← applySub_getCol]
          exact List.all_eq_true.mp h2 _
            (List.mem_map_of_mem _ (List.mem_map_of_mem _ hr))
        rw [ImputeCounts.mk.injEq]
        refine ⟨rfl, ?_, ?_⟩
        · symm
          rw [List.countP_eq_zero]
          intro r hr
          unfold contTierHitsFromStart
          rw [isNone_false_of_isSome (hsub r hr)]
          simp
        · symm
          rw [List.countP_eq_zero]
          intro r hr
          rw [valueAfterCont_of_subSome (hsub r hr), isNone_false_of_isSome (hsub r hr)]
          simp
      · rw [if_neg h2]
        by_cases h3 : (((rows.map (applySubregionTier rows c)).map
            (applyContinentTier rows c)).map (getCol c)).all Option.isSome
        · rw [if_pos h3]
          have hcont : ∀ r ∈ rows, (valueAfterContTier rows c r).isSome := by
            intro r hr
            rw [← applyContSub_getCol]
            exact List.all_eq_true.mp h3 _ (List.mem_map_of_mem _
              (List.mem_map_of_mem _ (List.mem_map_of_mem _ hr)))
          rw [ImputeCounts.mk.injEq]
          refine ⟨rfl, ?_, ?_⟩
          · rw [List.countP_map]
            exact List.countP_congr fun r hr => by
              show (continentTierHits rows c (applySubregionTier rows c r) = true) ↔ _
              rw [contHits_applySub]
          · symm
            rw [List.countP_eq_zero]
            intro r hr
            rw [isNone_false_of_isSome (hcont r hr)]
            simp
        · rw [if_neg h3]
          rw [ImputeCounts.mk.injEq]
          refine ⟨rfl, ?_, ?_⟩
          · rw [List.countP_map]
            exact List.countP_congr fun r hr => by
              show (continentTierHits rows c (applySubregionTier rows c r) = true) ↔ _
              rw [contHits_applySub]
          · rw [List.map_map, List.countP_map]
            exact List.countP_congr fun r hr => by
              show ((getCol c (applyContinentTier rows c (applySubregionTier rows c r))).isNone
                = true) ↔ _
              rw [applyContSub_getCol]
